import Mathlib

/-!
# nat_go: tunnel slot table, tunnel registry and protocol adapters

A shallow embedding of `internal/tunnel/protocol.go`, `internal/tunnel/manager.go`,
of the ingress, the SSE and the TCP handler of `cmd/server/main.go`, of
`ForwardRequest` and `HandleClientRequest` (`internal/proxy/http.go`), of the request
classification (`internal/proxy/sse.go`), of the handshake of `HandleWebSocketProxy`
(`internal/proxy/websocket.go`) and of `handleSSERequest` (`cmd/client/main.go`).

Modelling conventions.

* A Go `map[string]X` is an `AList` (association list with pairwise distinct keys).
  `len(m)` is the number of entries; the order in which `range` visits the keys is
  chosen by the runtime, so functions that `range` take the index of the first
  visited entry as an extra argument.
* Pointers are addresses (natural numbers) into a heap, a list of objects; `make`
  and `&T{...}` allocate at the end of the heap.
* A Go panic (send on a closed channel, close of a closed channel) is the result
  `none`.
* Every function is the sequential body of the Go function: the mutex it takes makes
  that body atomic with respect to the other methods of the same object.
* A handler that runs beside the dispatcher goroutine of its tunnel takes the frames
  the dispatcher handles in the meantime as arguments, one list for each place where
  the handler can be overtaken; errors of the network and timers are arguments too.
* `gin` and `net/http` are modelled as far as the handlers use them: the header map
  with `Set`, `Add`, `Del` and `Get`, `c.Header`, `c.GetHeader` and the content type
  rule of `c.Data`.
-/

namespace NatGo

/-! ## internal/tunnel/protocol.go -/

/-- Go: `type MessageType string`. -/
abbrev MessageType := String

def MessageTypeRegister : MessageType := "register"
def MessageTypeRequest : MessageType := "request"
def MessageTypeResponse : MessageType := "response"
def MessageTypeSSE : MessageType := "sse"
def MessageTypeTCPInit : MessageType := "tcp_init"
def MessageTypeTCPData : MessageType := "tcp_data"
def MessageTypeTCPClose : MessageType := "tcp_close"
def MessageTypeWebSocket : MessageType := "websocket"
def MessageTypeWebSocketData : MessageType := "websocket_data"
def MessageTypeError : MessageType := "error"
def MessageTypePing : MessageType := "ping"
def MessageTypePong : MessageType := "pong"

/-- Go: `type Message struct`. The field `Type` is spelled `Type_` (`Type` is reserved);
byte slices are lists of byte values, `map[string][]string` is a list of pairs. -/
structure Message where
  Type_ : MessageType := ""
  ID : String := ""
  TunnelID : String := ""
  Method : String := ""
  Path : String := ""
  Headers : List (String × List String) := []
  Body : List Nat := []
  Status : Int := 0
  Error : String := ""
  SSEData : String := ""
  WSData : List Nat := []
  WSMessageType : Int := 0
deriving DecidableEq, Repr

/-! ## Go channels of `*Message` -/

/-- A buffered Go channel: the queued frames (oldest first), the capacity given to
`make`, and whether `close` has been called. -/
structure Chan where
  buf : List Message
  cap : Nat
  closed : Bool
deriving DecidableEq, Repr

/-- Go: `make(chan *Message, n)`. -/
def Chan.make (n : Nat) : Chan := { buf := [], cap := n, closed := false }

/-- Go: `select { case ch <- msg: default: }`. A send on a closed channel panics, also
inside a `select`; otherwise the frame is queued when there is room, and the `default`
branch runs (nothing happens) when the buffer is full. -/
def Chan.trySend (c : Chan) (msg : Message) : Option Chan :=
  if c.closed then none
  else if c.buf.length < c.cap then some { c with buf := c.buf ++ [msg] }
  else some c

/-- Go: `close(ch)`. Closing a closed channel panics. -/
def Chan.close (c : Chan) : Option Chan :=
  if c.closed then none else some { c with closed := true }

/-- What `msg, ok := <-ch` does. -/
inductive Recv where
  | got (msg : Message) (rest : Chan)
  | done
  | block
deriving DecidableEq, Repr

/-- Go: `msg, ok := <-ch`. The oldest queued frame is taken (also from a closed
channel); an empty closed channel yields `ok = false`; an empty open channel blocks. -/
def Chan.recv (c : Chan) : Recv :=
  match c.buf with
  | msg :: rest => Recv.got msg { c with buf := rest }
  | [] => if c.closed then Recv.done else Recv.block

/-! ## internal/tunnel/manager.go: Tunnel -/

/-- Go: `type Tunnel struct`. `Conn` is the handle of the websocket connection,
`LastPing` a time stamp, `responseChans` maps a request ID to the address of its
channel in the channel heap. -/
structure Tunnel where
  ID : String
  Conn : Nat
  LastPing : Nat
  responseChans : AList (fun _ : String => Nat)

/-- Go: `NewTunnel`. `now` is the value of `time.Now()`. -/
def NewTunnel (id : String) (conn : Nat) (now : Nat) : Tunnel :=
  { ID := id, Conn := conn, LastPing := now, responseChans := ∅ }

/-- Go: `(*Tunnel).RegisterResponseChan`. Returns the tunnel, the channel heap and
the new channel `ch`. -/
def Tunnel.RegisterResponseChan (t : Tunnel) (chans : List Chan) (requestID : String) :
    Tunnel × List Chan × Nat :=
  let ch := chans.length
  let chans1 := chans ++ [Chan.make 1]
  ({ t with responseChans := t.responseChans.insert requestID ch }, chans1, ch)

/-- Go: `(*Tunnel).UnregisterResponseChan`. -/
def Tunnel.UnregisterResponseChan (t : Tunnel) (chans : List Chan) (requestID : String) :
    Option (Tunnel × List Chan) :=
  match t.responseChans.lookup requestID with
  | some ch =>
    match chans[ch]? with
    | some c =>
      match c.close with
      | some c1 =>
        some ({ t with responseChans := t.responseChans.erase requestID }, chans.set ch c1)
      | none => none
    | none => none
  | none => some (t, chans)

/-- Go: `(*Tunnel).DispatchMessage`. It holds the read lock and does not write to the
tunnel, so only the channel heap is returned. -/
def Tunnel.DispatchMessage (t : Tunnel) (chans : List Chan) (msg : Message) :
    Option (List Chan) :=
  match t.responseChans.lookup msg.ID with
  | some ch =>
    match chans[ch]? with
    | some c =>
      match c.trySend msg with
      | some c1 => some (chans.set ch c1)
      | none => none
    | none => none
  | none => some chans

/-- The state of a slot table that Go can be in: every registered channel is
allocated, open, was made with capacity 1, and no channel is registered twice. -/
def Tunnel.SlotsOK (t : Tunnel) (chans : List Chan) : Prop :=
  (∀ e ∈ t.responseChans.entries,
      ∃ c, chans[e.2]? = some c ∧ c.closed = false ∧ c.cap = 1) ∧
    (t.responseChans.entries.map (fun e => e.2)).Nodup

instance Tunnel.decSlotsOK (t : Tunnel) (chans : List Chan) : Decidable (t.SlotsOK chans) := by
  unfold Tunnel.SlotsOK; infer_instance

/-- What `select { case ch <- msg: default: }` leaves in an open channel of capacity 1
(see `Chan.trySend_eq_deliver`): the frame when the buffer was empty, the old content
otherwise. -/
def Chan.deliver (c : Chan) (msg : Message) : Chan :=
  if c.buf = [] then { c with buf := [msg] } else c

/-! ## Interleavings of the dispatcher and one consumer -/

/-- One step of an interleaving on a tunnel: the dispatcher goroutine calls
`DispatchMessage(msg)`, or the consumer of one slot executes `<-responseChan`. -/
inductive SlotEvent where
  | dispatch (msg : Message)
  | receive
deriving DecidableEq, Repr

/-- Runs an interleaving; `ch` is the consumer's channel and `got` the frames it has
received so far, oldest first. A receive on an empty channel gives the consumer no
frame (it stays blocked, or sees `ok = false`). -/
def runSlot (t : Tunnel) (ch : Nat) :
    List SlotEvent → List Chan → List Message → Option (List Chan × List Message)
  | [], chans, got => some (chans, got)
  | SlotEvent.dispatch msg :: evs, chans, got =>
    match t.DispatchMessage chans msg with
    | some chans1 => runSlot t ch evs chans1 got
    | none => none
  | SlotEvent.receive :: evs, chans, got =>
    match chans[ch]? with
    | some c =>
      match c.recv with
      | Recv.got msg rest => runSlot t ch evs (chans.set ch rest) (got ++ [msg])
      | Recv.done => runSlot t ch evs chans got
      | Recv.block => runSlot t ch evs chans got
    | none => none

/-- The frames of an interleaving that were dispatched with stream ID `id`. -/
def dispatchedTo (id : String) : List SlotEvent → List Message
  | [] => []
  | SlotEvent.dispatch msg :: evs =>
    if msg.ID = id then msg :: dispatchedTo id evs else dispatchedTo id evs
  | SlotEvent.receive :: evs => dispatchedTo id evs

/-! ## cmd/server/main.go: the receive loop of handleTCPConnection -/

/-- The public side of one TCP session: the bytes written to `publicConn`, whether
`publicConn.Close()` was called, and whether `handleTCPConnection` has returned. -/
structure TCPSession where
  written : List Nat
  publicClosed : Bool
  returned : Bool
deriving DecidableEq, Repr

/-- The `return` of `handleTCPConnection` after the slot was registered: the deferred
`tunnelConn.UnregisterResponseChan(connID)` runs. -/
def tcpReturn (connID : String) (t : Tunnel) (chans : List Chan) (s : TCPSession) :
    Option (Tunnel × List Chan × TCPSession) :=
  match t.UnregisterResponseChan chans connID with
  | some (t1, chans1) => some (t1, chans1, { s with returned := true })
  | none => none

/-- One iteration of the loop `for { msg, ok := <-responseChan ... }` of
`handleTCPConnection` (lines 399-416). `writeOK` tells whether `publicConn.Write`
succeeds if it is reached. A blocked receive leaves the state as it is. -/
def tcpLoopBody (connID : String) (ch : Nat) (writeOK : Bool)
    (t : Tunnel) (chans : List Chan) (s : TCPSession) :
    Option (Tunnel × List Chan × TCPSession) :=
  match chans[ch]? with
  | none => none
  | some c =>
    match c.recv with
    | Recv.block => some (t, chans, s)
    | Recv.done => tcpReturn connID t chans s
    | Recv.got msg rest =>
      let chans1 := chans.set ch rest
      if msg.Type_ = MessageTypeTCPData then
        if writeOK then some (t, chans1, { s with written := s.written ++ msg.Body })
        else tcpReturn connID t chans1 { s with publicClosed := true }
      else if msg.Type_ = MessageTypeTCPClose ∨ msg.Type_ = MessageTypeError then
        tcpReturn connID t chans1 { s with publicClosed := true }
      else some (t, chans1, s)

/-- One step of a TCP session: the dispatcher calls `DispatchMessage(msg)`, or the
handler goroutine runs one iteration of its receive loop. -/
inductive TCPEvent where
  | dispatch (msg : Message)
  | loop (writeOK : Bool)
deriving DecidableEq, Repr

/-- Runs an interleaving of the dispatcher with the receive loop of
`handleTCPConnection`. After the handler has returned its loop takes no more steps. -/
def runTCP (connID : String) (ch : Nat) :
    List TCPEvent → Tunnel → List Chan → TCPSession → Option (Tunnel × List Chan × TCPSession)
  | [], t, chans, s => some (t, chans, s)
  | TCPEvent.dispatch msg :: evs, t, chans, s =>
    match t.DispatchMessage chans msg with
    | some chans1 => runTCP connID ch evs t chans1 s
    | none => none
  | TCPEvent.loop writeOK :: evs, t, chans, s =>
    if s.returned then runTCP connID ch evs t chans s
    else
      match tcpLoopBody connID ch writeOK t chans s with
      | some (t1, chans1, s1) => runTCP connID ch evs t1 chans1 s1
      | none => none

/-- Tells whether a frame is a TCPData frame of the session `connID`. -/
def isTCPData (connID : String) (msg : Message) : Bool :=
  decide (msg.ID = connID) && decide (msg.Type_ = MessageTypeTCPData)

/-- The TCPData frames that the dispatcher delivered for `connID` in an interleaving. -/
def tcpDataOf (connID : String) : List TCPEvent → List Message
  | [] => []
  | TCPEvent.dispatch msg :: evs =>
    if isTCPData connID msg then msg :: tcpDataOf connID evs else tcpDataOf connID evs
  | TCPEvent.loop _ :: evs => tcpDataOf connID evs

/-- The concatenation of the `Body` fields of a list of frames. -/
def bodies (ms : List Message) : List Nat := (ms.map (fun m => m.Body)).flatten

/-- The interleaving in which every frame is consumed before the next one is
dispatched. -/
def alternating : List Message → List TCPEvent
  | [] => []
  | msg :: ms => TCPEvent.dispatch msg :: TCPEvent.loop true :: alternating ms

/-! ## internal/tunnel/manager.go: Manager -/

/-- Go: `type Manager struct`. `tunnels` maps a tunnel ID to the address of its
`Tunnel` object in `objs`; `closedConns` lists the connections on which `Close()` was
called, the latest call first. -/
structure Manager where
  tunnels : AList (fun _ : String => Nat)
  objs : List Tunnel
  closedConns : List Nat

/-- Go: `NewManager`. -/
def NewManager : Manager := { tunnels := ∅, objs := [], closedConns := [] }

/-- Go: `(*Manager).RegisterTunnel`. Returns the manager and the new tunnel. -/
def Manager.RegisterTunnel (m : Manager) (tunnelID : String) (conn : Nat) (now : Nat) :
    Manager × Nat :=
  let tunnel := m.objs.length
  let objs1 := m.objs ++ [NewTunnel tunnelID conn now]
  let closed1 :=
    match m.tunnels.lookup tunnelID with
    | some oldTunnel =>
      match m.objs[oldTunnel]? with
      | some old => old.Conn :: m.closedConns
      | none => m.closedConns
    | none => m.closedConns
  ({ tunnels := m.tunnels.insert tunnelID tunnel, objs := objs1, closedConns := closed1 }, tunnel)

/-- Go: `(*Manager).GetTunnel`; `(tunnel, true)` is `some tunnel`, `(nil, false)` is
`none`. -/
def Manager.GetTunnel (m : Manager) (tunnelID : String) : Option Nat :=
  m.tunnels.lookup tunnelID

/-- The key that `for id := range tunnels { return id, true }` returns: the runtime
starts the iteration at an entry of its choice, here the entry number `pick` (modulo
the number of entries). On an empty map the loop body does not run. -/
def rangeFirst (tunnels : AList (fun _ : String => Nat)) (pick : Nat) : Option String :=
  tunnels.keys[pick % tunnels.keys.length]?

/-- Go: `(*Manager).GetSingleTunnelID`. -/
def Manager.GetSingleTunnelID (m : Manager) (pick : Nat) : String × Bool :=
  if m.tunnels.keys.length ≠ 1 then ("", false)
  else
    match rangeFirst m.tunnels pick with
    | some id => (id, true)
    | none => ("", false)

/-- Go: `(*Manager).GetFirstTunnelID`. -/
def Manager.GetFirstTunnelID (m : Manager) (pick : Nat) : String × Bool :=
  if m.tunnels.keys.length = 0 then ("", false)
  else
    match rangeFirst m.tunnels pick with
    | some id => (id, true)
    | none => ("", false)

/-- Go: `(*Manager).RemoveTunnel`. -/
def Manager.RemoveTunnel (m : Manager) (tunnelID : String) : Manager :=
  match m.tunnels.lookup tunnelID with
  | some tunnel =>
    match m.objs[tunnel]? with
    | some t =>
      { m with closedConns := t.Conn :: m.closedConns, tunnels := m.tunnels.erase tunnelID }
    | none => { m with tunnels := m.tunnels.erase tunnelID }
  | none => m

/-- Every pointer stored in the registry refers to an allocated `Tunnel` object. -/
def Manager.PointersOK (m : Manager) : Prop :=
  ∀ e ∈ m.tunnels.entries, e.2 < m.objs.length

instance Manager.decPointersOK (m : Manager) : Decidable m.PointersOK := by
  unfold Manager.PointersOK; infer_instance

/-! ## internal/proxy/sse.go: request classification -/

/-- Go: `headers[key]` on a `map[string][]string`; a missing key gives the nil slice. -/
def headerValues (headers : List (String × List String)) (key : String) : List String :=
  (headers.lookup key).getD []

/-- Go: `strings.Contains(s, substr)`. -/
def stringsContains (s substr : String) : Bool :=
  decide (substr.toList <:+: s.toList)

/-- Go: `IsSSERequest`. -/
def IsSSERequest (headers : List (String × List String)) : Bool :=
  (headerValues headers "Accept").any (fun val => stringsContains val "text/event-stream")

/-- Go: `IsWebSocketRequest`. `toLower` is `strings.ToLower` of the Go library. -/
def IsWebSocketRequest (toLower : String → String) (headers : List (String × List String)) :
    Bool :=
  let hasConnection := (headerValues headers "Connection").any (fun val => toLower val == "upgrade")
  let hasUpgrade := (headerValues headers "Upgrade").any (fun val => toLower val == "websocket")
  hasConnection && hasUpgrade

/-! ## cmd/server/main.go: HTTP ingress -/

/-- The parts of the external request (`c.Request`) that the handlers read. `Body` is
the result of `io.ReadAll(c.Request.Body)`, `none` when it fails. -/
structure Request where
  Method : String
  URLPath : String
  RawQuery : String
  Header : List (String × List String)
  Body : Option (List Nat)

/-- How `processProxyRequest` goes on: it answers with `c.JSON(status, gin.H{"error": ...})`,
or it hands the request to one of the three adapters. -/
inductive Outcome where
  | json (status : Nat) (error : String)
  | sse (tunnelConn : Nat) (msg : Message)
  | websocket (tunnelConn : Nat) (requestID : String) (fullPath : String)
  | forward (tunnelID : String) (msg : Message)
deriving DecidableEq, Repr

/-- The status of the external response when the handler answers by itself. -/
def Outcome.status : Outcome → Option Nat
  | Outcome.json status _ => some status
  | _ => none

/-- The tunnel an adapter was given: `handleSSEProxy` and `HandleWebSocketProxy` get
the `*Tunnel`, `ForwardRequest` gets the tunnel ID and looks it up with `GetTunnel`. -/
def Outcome.routedTo (m : Manager) : Outcome → Option Nat
  | Outcome.json _ _ => none
  | Outcome.sse tunnelConn _ => some tunnelConn
  | Outcome.websocket tunnelConn _ _ => some tunnelConn
  | Outcome.forward tunnelID _ => m.GetTunnel tunnelID

/-- Go: `processProxyRequest`, up to the call of the adapter. `requestID` is the
value of `generateRequestID()`. -/
def processProxyRequest (toLower : String → String) (m : Manager) (req : Request)
    (requestID : String) (tunnelID path : String) : Outcome :=
  match m.GetTunnel tunnelID with
  | none => Outcome.json 503 "隧道不存在或未连接"
  | some tunnelConn =>
    match req.Body with
    | none => Outcome.json 500 "读取请求体失败"
    | some body =>
      let fullPath := if req.RawQuery ≠ "" then path ++ "?" ++ req.RawQuery else path
      let msg : Message :=
        { Type_ := MessageTypeRequest, ID := requestID, Method := req.Method, Path := fullPath,
          Headers := req.Header, Body := body }
      if IsSSERequest req.Header then Outcome.sse tunnelConn msg
      else if IsWebSocketRequest toLower req.Header then
        Outcome.websocket tunnelConn requestID fullPath
      else Outcome.forward tunnelID msg

/-- Go: `handleProxyRequest`; `tunnelID` and `path` are the route parameters. -/
def handleProxyRequest (toLower : String → String) (m : Manager) (req : Request)
    (requestID : String) (tunnelID path : String) : Outcome :=
  processProxyRequest toLower m req requestID tunnelID path

/-- Go: `handleDefaultProxyRequest`. `pick` is what the `range` in `GetFirstTunnelID`
or `GetSingleTunnelID` starts at. -/
def handleDefaultProxyRequest (toLower : String → String) (isPrivateUse : Bool) (m : Manager)
    (pick : Nat) (req : Request) (requestID : String) : Outcome :=
  let path := if req.URLPath = "" then "/" else req.URLPath
  if isPrivateUse then
    let r := m.GetFirstTunnelID pick
    if !r.2 then Outcome.json 503 "没有可用的隧道连接"
    else processProxyRequest toLower m req requestID r.1 path
  else
    let r := m.GetSingleTunnelID pick
    if !r.2 then Outcome.json 400 "请使用 /tunnel/\x7b隧道ID\x7d/ 前缀访问或仅保持一个隧道连接"
    else processProxyRequest toLower m req requestID r.1 path

/-- Go: `selectTunnelIDForTCP`. -/
def selectTunnelIDForTCP (isPrivateUse : Bool) (m : Manager) (pick : Nat) : String × Bool :=
  if isPrivateUse then m.GetFirstTunnelID pick else m.GetSingleTunnelID pick

/-- Go: the routes that `main` registers for proxied requests. The route
`/tunnel/:tunnelID/*path` exists only when `PrivateUse` is off; `explicit` holds its
parameters when the request URL has that form. Every other request goes to the
`NoRoute` handler. -/
def ingress (toLower : String → String) (isPrivateUse : Bool) (m : Manager) (pick : Nat)
    (req : Request) (requestID : String) (explicit : Option (String × String)) : Outcome :=
  if !isPrivateUse then
    match explicit with
    | some (tunnelID, path) => handleProxyRequest toLower m req requestID tunnelID path
    | none => handleDefaultProxyRequest toLower isPrivateUse m pick req requestID
  else handleDefaultProxyRequest toLower isPrivateUse m pick req requestID

/-! ## internal/tunnel/manager.go: heartbeat -/

/-- Go: `time.Second`, in the unit of `time.Duration` (nanoseconds). -/
def Second : Int := 1000000000

/-- Every registry key is the `ID` of the tunnel object it points to (the object is
allocated): `RegisterTunnel` stores `NewTunnel(tunnelID, conn)` under `tunnelID`, and
the field is never written again. -/
def Manager.IDsOK (m : Manager) : Prop :=
  ∀ e ∈ m.tunnels.entries, (m.objs[e.2]?).map (fun t => t.ID) = some e.1

instance Manager.decIDsOK (m : Manager) : Decidable m.IDsOK := by
  unfold Manager.IDsOK; infer_instance

/-- Go: the body of `for _, tunnel := range tunnels` in `StartHeartbeat`, for one
tunnel of the snapshot. `pingOK tunnel` tells whether `tunnel.SendMessage(pingMsg)`
returns without an error; `now` is the clock read by `time.Since`. -/
def heartbeatVisit (pingOK : Nat → Bool) (now : Nat) (m : Manager) (tunnel : Nat) : Manager :=
  match m.objs[tunnel]? with
  | none => m
  | some t =>
    if !pingOK tunnel then m.RemoveTunnel t.ID
    else
      let timeout := decide ((now : Int) - (t.LastPing : Int) > 60 * Second)
      if timeout then m.RemoveTunnel t.ID else m

/-- Go: one tick of `StartHeartbeat`, after the snapshot `tunnels` of the registry was
taken: the tunnels of the snapshot are visited in the order of the slice. -/
def heartbeatScan (pingOK : Nat → Bool) (now : Nat) (m : Manager) (tunnels : List Nat) :
    Manager :=
  tunnels.foldl (heartbeatVisit pingOK now) m

/-- The tunnel pointers stored in the registry; a snapshot is a permutation of them. -/
def Manager.pointers (m : Manager) : List Nat := m.tunnels.entries.map (fun e => e.2)

/-! ## The server: registry and channel heap -/

/-- The registry together with the heap of the slot channels of all tunnels. -/
structure World where
  m : Manager
  chans : List Chan

/-- The call `tunnelManager.RemoveTunnel(tunnelID)` in the server: the method has no
access to the channels. -/
def World.RemoveTunnel (w : World) (tunnelID : String) : World :=
  { w with m := w.m.RemoveTunnel tunnelID }

/-- The call `tunnelManager.RegisterTunnel(tunnelID, conn)` in the server. -/
def World.RegisterTunnel (w : World) (tunnelID : String) (conn : Nat) (now : Nat) :
    World × Nat :=
  ({ w with m := (w.m.RegisterTunnel tunnelID conn now).1 },
    (w.m.RegisterTunnel tunnelID conn now).2)

/-! ## Sequences of slot table operations -/

/-- A call of one of the three slot table methods of a tunnel, or a receive
`<-ch` by the consumer that holds the channel `ch`. -/
inductive SlotOp where
  | register (requestID : String)
  | unregister (requestID : String)
  | dispatch (msg : Message)
  | receive (ch : Nat)
deriving DecidableEq, Repr

/-- Runs one operation; `none` is a panic. -/
def runSlotOp (t : Tunnel) (chans : List Chan) : SlotOp → Option (Tunnel × List Chan)
  | SlotOp.register requestID =>
    some ((t.RegisterResponseChan chans requestID).1, (t.RegisterResponseChan chans requestID).2.1)
  | SlotOp.unregister requestID => t.UnregisterResponseChan chans requestID
  | SlotOp.dispatch msg =>
    match t.DispatchMessage chans msg with
    | some chans1 => some (t, chans1)
    | none => none
  | SlotOp.receive ch =>
    match chans[ch]? with
    | some c =>
      match c.recv with
      | Recv.got _ rest => some (t, chans.set ch rest)
      | Recv.done => some (t, chans)
      | Recv.block => some (t, chans)
    | none => some (t, chans)

/-- Runs a sequence of operations, stopping at the first panic. -/
def runSlotOps : List SlotOp → Tunnel → List Chan → Option (Tunnel × List Chan)
  | [], t, chans => some (t, chans)
  | op :: ops, t, chans =>
    match runSlotOp t chans op with
    | some (t1, chans1) => runSlotOps ops t1 chans1
    | none => none

/-! ## internal/tunnel/manager.go: the dispatcher goroutine -/

/-- What the transport holds for one `ReadMessage`: a text that `json.Unmarshal`
decodes to a frame, a text that it rejects, or a failure of `Conn.ReadMessage`. -/
inductive Wire where
  | frame (msg : Message)
  | malformed
  | readError
deriving DecidableEq, Repr

/-- Go: `(*Tunnel).ReadMessage`; both kinds of error are returned as `err`, here
`none`. -/
def ReadMessage : Wire → Option Message
  | Wire.frame msg => some msg
  | Wire.malformed => none
  | Wire.readError => none

/-- Go: `(*Tunnel).UpdatePing`; `now` is the value of `time.Now()`. -/
def Tunnel.UpdatePing (t : Tunnel) (now : Nat) : Tunnel := { t with LastPing := now }

/-- Go: the goroutine started by `StartMessageDispatcher`, run on what the transport
delivers (each item with the clock at that moment). The result holds the items that
were not read when the loop ended; with nothing left to read the goroutine is blocked
in `ReadMessage`. -/
def dispatcherLoop :
    List (Wire × Nat) → Tunnel → List Chan → Option (Tunnel × List Chan × List (Wire × Nat))
  | [], t, chans => some (t, chans, [])
  | (wire, now) :: rest, t, chans =>
    match ReadMessage wire with
    | none => some (t, chans, rest)
    | some msg =>
      if msg.Type_ = MessageTypePong then dispatcherLoop rest (t.UpdatePing now) chans
      else
        match t.DispatchMessage chans msg with
        | some chans1 => dispatcherLoop rest t chans1
        | none => none

/-- The twelve discriminators of `protocol.go`. -/
def knownTypes : List MessageType :=
  [MessageTypeRegister, MessageTypeRequest, MessageTypeResponse, MessageTypeSSE,
    MessageTypeTCPInit, MessageTypeTCPData, MessageTypeTCPClose, MessageTypeWebSocket,
    MessageTypeWebSocketData, MessageTypeError, MessageTypePing, MessageTypePong]

/-- The dispatcher calls `DispatchMessage` for each frame of a list, in order. -/
def dispatchAll (t : Tunnel) : List Message → List Chan → Option (List Chan)
  | [], chans => some chans
  | msg :: msgs, chans =>
    match t.DispatchMessage chans msg with
    | some chans1 => dispatchAll t msgs chans1
    | none => none

/-! ## internal/proxy/http.go: ForwardRequest -/

/-- The deferred `tunnelConn.UnregisterResponseChan(msg.ID)` of `ForwardRequest`,
followed by the return of `resp`; `tunnelConn` is the address of the tunnel object,
`t` its content. -/
def forwardReturn (w : World) (tunnelConn : Nat) (t : Tunnel) (chans : List Chan)
    (requestID : String) (resp : Message) : Option (World × Message) :=
  match t.UnregisterResponseChan chans requestID with
  | some (t1, chans1) =>
    some ({ m := { w.m with objs := w.m.objs.set tunnelConn t1 }, chans := chans1 }, resp)
  | none => none

/-- Go: `(*HTTPProxy).ForwardRequest`; the returned `error` is always nil.
`sendErr` is the error of `tunnelConn.SendMessage(msg)`, if any; `arrivals` are the
frames that the dispatcher of the tunnel handles while the function waits in its
`select`; `timeoutFirst` tells that the timer fires before a frame is taken from the
channel. From a closed channel the function would return the nil frame, which its
caller dereferences: that panic is the result `none`. -/
def HTTPProxy.ForwardRequest (w : World) (tunnelID : String) (msg : Message)
    (sendErr : Option String) (arrivals : List Message) (timeoutFirst : Bool) :
    Option (World × Message) :=
  match w.m.GetTunnel tunnelID with
  | none => some (w, { Type_ := MessageTypeError, ID := msg.ID, Error := "隧道不存在" })
  | some tunnelConn =>
    match w.m.objs[tunnelConn]? with
    | none => none
    | some t =>
      let t1 := (t.RegisterResponseChan w.chans msg.ID).1
      let chans1 := (t.RegisterResponseChan w.chans msg.ID).2.1
      let responseChan := (t.RegisterResponseChan w.chans msg.ID).2.2
      match sendErr with
      | some e =>
        forwardReturn w tunnelConn t1 chans1 msg.ID
          { Type_ := MessageTypeError, ID := msg.ID, Error := "发送请求失败: " ++ e }
      | none =>
        match dispatchAll t1 arrivals chans1 with
        | none => none
        | some chans2 =>
          match chans2[responseChan]? with
          | none => none
          | some c =>
            match c.recv with
            | Recv.got respMsg rest =>
              if timeoutFirst then
                forwardReturn w tunnelConn t1 chans2 msg.ID
                  { Type_ := MessageTypeError, ID := msg.ID, Error := "请求超时" }
              else forwardReturn w tunnelConn t1 (chans2.set responseChan rest) msg.ID respMsg
            | Recv.done => none
            | Recv.block =>
              forwardReturn w tunnelConn t1 chans2 msg.ID
                { Type_ := MessageTypeError, ID := msg.ID, Error := "请求超时" }

/-! ## cmd/server/main.go: handleSSEProxy -/

/-- What `handleSSEProxy` has sent to the external client when it returns: a JSON
error, or the response headers it set with `c.Header` (in the order of the calls) and
the text it wrote to `c.Writer`. -/
inductive SSEOut where
  | json (status : Nat) (error : String)
  | stream (header : List (String × String)) (body : String)
deriving DecidableEq, Repr

/-- Go: the loop `for { select { case <-timeout: ...; case respMsg := <-responseChan: ... } }`
of `handleSSEProxy`, interleaved with the dispatcher of the tunnel: a `dispatch` is a
call of `DispatchMessage` by the dispatcher, a `receive` one turn of the loop that
takes the channel case (nothing happens while the channel is empty), and at the end of
the list the timer fires. `body` is the text written so far. Dereferencing the nil
frame of a closed channel is a panic. -/
def sseLoop (t : Tunnel) (responseChan : Nat) (id : String) :
    List SlotEvent → List Chan → String → Option (List Chan × String)
  | [], chans, body => some (chans, body)
  | SlotEvent.dispatch m :: evs, chans, body =>
    match t.DispatchMessage chans m with
    | some chans1 => sseLoop t responseChan id evs chans1 body
    | none => none
  | SlotEvent.receive :: evs, chans, body =>
    match chans[responseChan]? with
    | none => none
    | some c =>
      match c.recv with
      | Recv.got respMsg rest =>
        if respMsg.Type_ = MessageTypeSSE ∧ respMsg.ID = id then
          sseLoop t responseChan id evs (chans.set responseChan rest)
            (body ++ (respMsg.SSEData ++ "\n"))
        else if respMsg.Type_ = MessageTypeError ∧ respMsg.ID = id then
          some (chans.set responseChan rest,
            body ++ ("event: error\ndata: " ++ respMsg.Error ++ "\n\n"))
        else sseLoop t responseChan id evs (chans.set responseChan rest) body
      | Recv.done => none
      | Recv.block => sseLoop t responseChan id evs chans body

/-- Go: `handleSSEProxy`. `sendErr` is the error of `tunnelConn.SendMessage(msg)`, if
any; `flusherOK` tells whether the writer is an `http.Flusher`; `early` are the frames
that the dispatcher handles after the request frame was sent and before the slot is
registered; `evs` is the interleaving of the loop with the dispatcher after that. -/
def handleSSEProxy (t : Tunnel) (chans : List Chan) (msg : Message) (sendErr : Option String)
    (flusherOK : Bool) (early : List Message) (evs : List SlotEvent) :
    Option (Tunnel × List Chan × SSEOut) :=
  match sendErr with
  | some e => some (t, chans, SSEOut.json 500 ("发送请求失败: " ++ e))
  | none =>
    match dispatchAll t early chans with
    | none => none
    | some chans1 =>
      if !flusherOK then some (t, chans1, SSEOut.json 500 "响应不支持流式传输")
      else
        let t1 := (t.RegisterResponseChan chans1 msg.ID).1
        let chans2 := (t.RegisterResponseChan chans1 msg.ID).2.1
        let responseChan := (t.RegisterResponseChan chans1 msg.ID).2.2
        match sseLoop t1 responseChan msg.ID evs chans2 "" with
        | none => none
        | some (chans3, body) =>
          match t1.UnregisterResponseChan chans3 msg.ID with
          | some (t2, chans4) =>
            some (t2, chans4,
              SSEOut.stream
                [("Content-Type", "text/event-stream"), ("Cache-Control", "no-cache"),
                  ("Connection", "keep-alive"), ("X-Accel-Buffering", "no")] body)
          | none => none

/-- The interleaving in which every frame is dispatched and then received before the
next one is dispatched. -/
def deliverEach : List Message → List SlotEvent
  | [] => []
  | msg :: msgs => SlotEvent.dispatch msg :: SlotEvent.receive :: deliverEach msgs

/-- Every line followed by a line feed. -/
def sseText : List String → String
  | [] => ""
  | line :: lines => (line ++ "\n") ++ sseText lines

/-! ## cmd/client/main.go: handleSSERequest -/

/-- Go: the loop `for scanner.Scan() { ... }` of `handleSSERequest` over the lines the
scanner yields. `sent` counts the frames passed to `SendMessage` so far and
`sendOK sent` tells whether the next `SendMessage` succeeds. Returns the frames passed
to `SendMessage`, in order, and whether the loop ran to the end of the input. -/
def sseScan (sendOK : Nat → Bool) (id : String) : List String → Nat → List Message × Bool
  | [], _ => ([], true)
  | line :: lines, sent =>
    if line ≠ "" then
      if sendOK sent then
        ({ Type_ := MessageTypeSSE, ID := id, SSEData := line } ::
            (sseScan sendOK id lines (sent + 1)).1,
          (sseScan sendOK id lines (sent + 1)).2)
      else ([{ Type_ := MessageTypeSSE, ID := id, SSEData := line }], false)
    else sseScan sendOK id lines sent

/-- Go: `handleSSERequest` (client). `newRequestErr` and `doErr` are the errors of
`http.NewRequest` and `client.Do`, if any; `lines` are the lines `scanner.Text()`
yields and `scanErr` is `scanner.Err()` after the loop. Returns the frames passed to
`tunnelConn.SendMessage`, in order. -/
def handleSSERequest (msg : Message) (newRequestErr doErr : Option String)
    (lines : List String) (scanErr : Option String) (sendOK : Nat → Bool) : List Message :=
  match newRequestErr with
  | some e => [{ Type_ := MessageTypeError, ID := msg.ID, Error := "创建请求失败: " ++ e }]
  | none =>
    match doErr with
    | some e => [{ Type_ := MessageTypeError, ID := msg.ID, Error := "请求失败: " ++ e }]
    | none =>
      let r := sseScan sendOK msg.ID lines 0
      if !r.2 then r.1
      else
        match scanErr with
        | some e =>
          r.1 ++ [{ Type_ := MessageTypeError, ID := msg.ID, Error := "读取SSE流失败: " ++ e }]
        | none => r.1

/-! ## internal/proxy/websocket.go: HandleWebSocketProxy, the handshake -/

/-- Go: the frame `msg` that `HandleWebSocketProxy` builds and sends first. -/
def wsOpenFrame (req : Request) (requestID path : String) : Message :=
  { Type_ := MessageTypeWebSocket, ID := requestID, Method := req.Method, Path := path,
    Headers := req.Header, Body := [] }

/-- How the handshake of `HandleWebSocketProxy` ends: with a JSON error, or with the
upgrade of the external connection (`upgrader.Upgrade`), after which the bridge runs. -/
inductive WSOut where
  | json (status : Int) (error : String)
  | upgrade
deriving DecidableEq, Repr

/-- Go: `HandleWebSocketProxy` up to the call of `upgrader.Upgrade`. The frame `msg`
that is sent is `wsOpenFrame`, built from the request and the `path` argument, which
play no other part; `sendErr` is the error of `tunnelConn.SendMessage(msg)`,
if any; `early` are the frames that the
dispatcher handles after the WebSocket frame was sent and before the slot is
registered, `arrivals` those it handles while the function waits in its `select`;
`timeoutFirst` tells that the timer fires before a frame is taken from the channel.
On the JSON paths the deferred `UnregisterResponseChan` has run; on `upgrade` the slot
is still registered. -/
def HandleWebSocketProxy (t : Tunnel) (chans : List Chan) (requestID : String)
    (sendErr : Option String) (early arrivals : List Message) (timeoutFirst : Bool) :
    Option (Tunnel × List Chan × WSOut) :=
  match sendErr with
  | some e => some (t, chans, WSOut.json 500 ("发送WebSocket请求失败: " ++ e))
  | none =>
    match dispatchAll t early chans with
    | none => none
    | some chans1 =>
      let t1 := (t.RegisterResponseChan chans1 requestID).1
      let chans2 := (t.RegisterResponseChan chans1 requestID).2.1
      let responseChan := (t.RegisterResponseChan chans1 requestID).2.2
      let leave := fun (chans : List Chan) (out : WSOut) =>
        match t1.UnregisterResponseChan chans requestID with
        | some (t2, chans3) => some (t2, chans3, out)
        | none => none
      match dispatchAll t1 arrivals chans2 with
      | none => none
      | some chans3 =>
        match chans3[responseChan]? with
        | none => none
        | some c =>
          match c.recv with
          | Recv.got respMsg rest =>
            if timeoutFirst then leave chans3 (WSOut.json 500 "WebSocket升级超时")
            else if respMsg.Type_ = MessageTypeError then
              leave (chans3.set responseChan rest) (WSOut.json 500 respMsg.Error)
            else if respMsg.Status ≠ 101 then
              leave (chans3.set responseChan rest) (WSOut.json respMsg.Status "WebSocket升级失败")
            else some (t1, chans3.set responseChan rest, WSOut.upgrade)
          | Recv.done => none
          | Recv.block => leave chans3 (WSOut.json 500 "WebSocket升级超时")

/-! ## gin and net/http: header maps -/

/-- net/http: `Header.Del(key)`; `canon` is `textproto.CanonicalMIMEHeaderKey`. -/
def headerDel (canon : String → String) (h : List (String × List String)) (key : String) :
    List (String × List String) :=
  h.filter (fun e => decide (e.1 ≠ canon key))

/-- net/http: `Header.Set(key, value)`: the entry of the key is replaced by the single
value. -/
def headerSet (canon : String → String) (h : List (String × List String)) (key value : String) :
    List (String × List String) :=
  (canon key, [value]) :: headerDel canon h key

/-- net/http: `Header.Add(key, value)`: the value is appended to the values of the
key. -/
def headerAdd (canon : String → String) (h : List (String × List String)) (key value : String) :
    List (String × List String) :=
  (canon key, headerValues h (canon key) ++ [value]) :: headerDel canon h key

/-- net/http: `Header.Get(key)`: the first value of the key, or the empty string. -/
def headerGet (canon : String → String) (h : List (String × List String)) (key : String) :
    String :=
  ((headerValues h (canon key)).head?).getD ""

/-- gin: `(*Context).Header(key, value)`, documented as a shortcut for
`c.Writer.Header().Set(key, value)`, which removes the header when `value` is empty. -/
def ginHeader (canon : String → String) (h : List (String × List String)) (key value : String) :
    List (String × List String) :=
  if value = "" then headerDel canon h key else headerSet canon h key value

/-- gin: `(*Context).GetHeader(key)`, which reads the headers of the request. -/
def ginGetHeader (canon : String → String) (req : Request) (key : String) : String :=
  headerGet canon req.Header key

/-- gin: the header part of `(*Context).Data(code, contentType, data)`: the content
type is stored only when the response has no `Content-Type` yet. -/
def ginWriteContentType (h : List (String × List String)) (contentType : String) :
    List (String × List String) :=
  if headerValues h "Content-Type" = [] then ("Content-Type", [contentType]) :: h else h

/-! ## cmd/server/main.go: the external response of processProxyRequest -/

/-- The external response of `processProxyRequest` after `ForwardRequest`: a JSON
error, or the `c.Data` call with its status code, the header map of the response at
that point and the body. -/
inductive ProxyReply where
  | json (status : Nat) (error : String)
  | data (status : Int) (header : List (String × List String)) (body : List Nat)
deriving DecidableEq, Repr

/-- Go: the two nested `range` loops of `processProxyRequest` that call
`c.Header(key, value)`; the frame's header map is visited in the order of the list. -/
def copyResponseHeaders (canon : String → String) (headers : List (String × List String)) :
    List (String × List String) :=
  headers.foldl (fun h kv => kv.2.foldl (fun h1 value => ginHeader canon h1 kv.1 value) h) []

/-- Go: `processProxyRequest` from the return of `ForwardRequest` (whose error is
always nil) with the frame `respMsg` to the end. -/
def proxyReply (canon : String → String) (req : Request) (respMsg : Message) : ProxyReply :=
  if respMsg.Type_ = MessageTypeError then ProxyReply.json 500 respMsg.Error
  else
    let header := copyResponseHeaders canon respMsg.Headers
    ProxyReply.data respMsg.Status
      (ginWriteContentType header (ginGetHeader canon req "Content-Type")) respMsg.Body

/-! ## internal/proxy/http.go: HandleClientRequest -/

/-- The request that the client makes to the local service. -/
structure LocalRequest where
  Method : String
  URL : String
  Header : List (String × List String)
  Body : List Nat
deriving DecidableEq, Repr

/-- The response of the local service: `Body` is the result of `io.ReadAll(resp.Body)`,
an error text when it fails. -/
structure LocalResponse where
  StatusCode : Int
  Header : List (String × List String)
  Body : Except String (List Nat)

/-- Go: the request that `HandleClientRequest` builds: `http.NewRequest(msg.Method,
targetURL + msg.Path, ...)`, then `req.Header.Add` for every value of every header of
the frame. -/
def clientRequest (canon : String → String) (targetURL : String) (msg : Message) :
    LocalRequest :=
  { Method := msg.Method
    URL := targetURL ++ msg.Path
    Header :=
      msg.Headers.foldl (fun h kv => kv.2.foldl (fun h1 value => headerAdd canon h1 kv.1 value) h)
        []
    Body := msg.Body }

/-- Go: `HandleClientRequest`; the returned `error` is always nil. `newRequestErr` is
the error of `http.NewRequest`, if any, and `doRequest` stands for `client.Do`.
Returns the reply frame and the request passed to `client.Do`, if it came to that. -/
def HandleClientRequest (canon : String → String) (targetURL : String) (msg : Message)
    (newRequestErr : Option String) (doRequest : LocalRequest → Except String LocalResponse) :
    Message × Option LocalRequest :=
  match newRequestErr with
  | some e => ({ Type_ := MessageTypeError, ID := msg.ID, Error := "创建请求失败: " ++ e }, none)
  | none =>
    let req := clientRequest canon targetURL msg
    match doRequest req with
    | Except.error e =>
      ({ Type_ := MessageTypeError, ID := msg.ID, Error := "请求失败: " ++ e }, some req)
    | Except.ok resp =>
      match resp.Body with
      | Except.error e =>
        ({ Type_ := MessageTypeError, ID := msg.ID, Error := "读取响应失败: " ++ e }, some req)
      | Except.ok body =>
        ({ Type_ := MessageTypeResponse, ID := msg.ID, Status := resp.StatusCode,
           Headers := resp.Header, Body := body }, some req)

/-- The path that an adapter is given by `processProxyRequest`: the `Path` of the
frame for `handleSSEProxy` and `ForwardRequest`, the `path` argument of
`HandleWebSocketProxy`. -/
def Outcome.path : Outcome → Option String
  | Outcome.json _ _ => none
  | Outcome.sse _ msg => some msg.Path
  | Outcome.websocket _ _ fullPath => some fullPath
  | Outcome.forward _ msg => some msg.Path

/-! ## Comparison of strings up to letter case -/

/-- Tells whether two strings are equal up to the case of the letters A to Z: the same
length, and at every position the same character after `Char.toLower`. -/
def eqIgnoreCase (v w : String) : Bool :=
  v.data.map Char.toLower == w.data.map Char.toLower

/-! ## Concrete states used in examples -/

/-- A tunnel whose slot table holds one slot: `requestID` is registered with the
channel at address `ch`. -/
def slotTunnel (requestID : String) (ch : Nat) : Tunnel :=
  { NewTunnel "t1" 0 0 with
    responseChans := (∅ : AList (fun _ : String => Nat)).insert requestID ch }

/-- A registry with the tunnels "a" and "b" on the connections 10 and 11. -/
def twoTunnels : Manager :=
  ((NewManager.RegisterTunnel "a" 10 0).1.RegisterTunnel "b" 11 0).1

/-- A GET request for `/x` with an empty body and no headers. -/
def getX : Request :=
  { Method := "GET", URLPath := "/x", RawQuery := "", Header := [], Body := some [] }

/-- A server with one tunnel "a" (object 0, on connection 10) on which the stream "r"
has registered its slot, the open and empty channel 0. -/
def oneStream : World :=
  { m := { tunnels := (∅ : AList (fun _ : String => Nat)).insert "a" 0,
           objs := [{ ID := "a", Conn := 10, LastPing := 0,
                      responseChans := (∅ : AList (fun _ : String => Nat)).insert "r" 0 }],
           closedConns := [] },
    chans := [Chan.make 1] }

/-- A GET request for `/q?x=1&y=two`. -/
def getQ : Request :=
  { Method := "GET", URLPath := "/q", RawQuery := "x=1&y=two", Header := [], Body := some [] }

/-- A Response frame with status 200, two cookies and the body "hi". -/
def twoCookies : Message :=
  { Type_ := MessageTypeResponse, ID := "q", Status := 200,
    Headers := [("Set-Cookie", ["a=1", "b=2"])], Body := [104, 105] }

/-! # Theorems -/

/-! ## Slot table lemmas -/

theorem Tunnel.SlotsOK.lookup {t : Tunnel} {chans : List Chan} (h : t.SlotsOK chans)
    {id : String} {a : Nat} (ha : t.responseChans.lookup id = some a) :
    ∃ c, chans[a]? = some c ∧ c.closed = false ∧ c.cap = 1 := by
  have hmem : (⟨id, a⟩ : Sigma (fun _ : String => Nat)) ∈ t.responseChans.entries :=
    AList.mem_lookup_iff.mp ha
  exact h.1 _ hmem

theorem Tunnel.SlotsOK.inj {t : Tunnel} {chans : List Chan} (h : t.SlotsOK chans)
    {id id' : String} {a : Nat} (ha : t.responseChans.lookup id = some a)
    (ha' : t.responseChans.lookup id' = some a) : id = id' := by
  have hm : (⟨id, a⟩ : Sigma (fun _ : String => Nat)) ∈ t.responseChans.entries :=
    AList.mem_lookup_iff.mp ha
  have hm' : (⟨id', a⟩ : Sigma (fun _ : String => Nat)) ∈ t.responseChans.entries :=
    AList.mem_lookup_iff.mp ha'
  have := List.inj_on_of_nodup_map h.2 hm hm' rfl
  exact congrArg Sigma.fst this

theorem getElem?_lt {chans : List Chan} {a : Nat} {c : Chan} (h : chans[a]? = some c) :
    a < chans.length := by
  rcases List.getElem?_eq_some_iff.mp h with ⟨hlt, _⟩
  exact hlt

theorem set_self_eq {chans : List Chan} {a : Nat} {c : Chan} (h : chans[a]? = some c) :
    chans.set a c = chans := by
  apply List.ext_getElem?
  intro i
  by_cases hi : a = i
  · subst hi; simp [List.getElem?_set, getElem?_lt h, h]
  · simp [List.getElem?_set, hi]

theorem getElem?_set_self {chans : List Chan} {a : Nat} {c c1 : Chan}
    (h : chans[a]? = some c) : (chans.set a c1)[a]? = some c1 := by
  simp [List.getElem?_set, getElem?_lt h]

theorem getElem?_set_other {chans : List Chan} {a b : Nat} (c1 : Chan) (h : a ≠ b) :
    (chans.set a c1)[b]? = chans[b]? := by
  simp [List.getElem?_set, h]

/-- Replacing a channel by one that is open and of capacity 1 keeps the slot table
well formed. -/
theorem Tunnel.SlotsOK.set {t : Tunnel} {chans : List Chan} (h : t.SlotsOK chans)
    (a : Nat) (c1 : Chan) (hopen : c1.closed = false) (hcap : c1.cap = 1) :
    t.SlotsOK (chans.set a c1) := by
  refine ⟨?_, h.2⟩
  intro e he
  obtain ⟨c, hc, ho, hp⟩ := h.1 e he
  by_cases hea : a = e.2
  · subst hea
    exact ⟨c1, getElem?_set_self hc, hopen, hcap⟩
  · exact ⟨c, by rw [getElem?_set_other c1 hea]; exact hc, ho, hp⟩

theorem Chan.deliver_closed (c : Chan) (m : Message) : (c.deliver m).closed = c.closed := by
  unfold Chan.deliver; split <;> rfl

theorem Chan.deliver_cap (c : Chan) (m : Message) : (c.deliver m).cap = c.cap := by
  unfold Chan.deliver; split <;> rfl

/-- On an open channel of capacity 1 the non-blocking send never panics and leaves
`Chan.deliver`. -/
theorem Chan.trySend_eq_deliver (c : Chan) (m : Message) (hopen : c.closed = false)
    (hcap : c.cap = 1) : c.trySend m = some (c.deliver m) := by
  by_cases hb : c.buf = []
  · simp [Chan.trySend, Chan.deliver, hopen, hcap, hb]
  · have hlen : ¬ c.buf.length < 1 := by
      cases hcb : c.buf with
      | nil => exact absurd hcb hb
      | cons x xs => simp
    simp [Chan.trySend, Chan.deliver, hopen, hcap, hb, hlen]

theorem Tunnel.dispatch_none {t : Tunnel} {chans : List Chan} {m : Message}
    (hl : t.responseChans.lookup m.ID = none) : t.DispatchMessage chans m = some chans := by
  simp [Tunnel.DispatchMessage, hl]

theorem Tunnel.dispatch_some {t : Tunnel} {chans : List Chan} {m : Message}
    (h : t.SlotsOK chans) {ch : Nat} {c : Chan}
    (hl : t.responseChans.lookup m.ID = some ch) (hc : chans[ch]? = some c) :
    t.DispatchMessage chans m = some (chans.set ch (c.deliver m)) := by
  obtain ⟨c', hc', hopen, hcap⟩ := h.lookup hl
  rw [hc] at hc'; cases hc'
  simp [Tunnel.DispatchMessage, hl, hc, Chan.trySend_eq_deliver c m hopen hcap]

/-- The slot table of a new tunnel is well formed, whatever the channel heap holds. -/
theorem NewTunnel_slotsOK (id : String) (conn now : Nat) (chans : List Chan) :
    (NewTunnel id conn now).SlotsOK chans := by
  constructor
  · intro e he
    cases he
  · exact List.nodup_nil

/-- Registering a slot keeps the slot table well formed. -/
theorem Tunnel.SlotsOK.register {t : Tunnel} {chans : List Chan} (h : t.SlotsOK chans)
    (requestID : String) :
    (t.RegisterResponseChan chans requestID).1.SlotsOK
      (t.RegisterResponseChan chans requestID).2.1 := by
  have hsub : (List.kerase requestID t.responseChans.entries).Sublist t.responseChans.entries :=
    List.kerase_sublist _ _
  constructor
  · intro e he
    simp only [Tunnel.RegisterResponseChan, AList.insert_entries, List.mem_cons] at he
    rcases he with he | he
    · subst he
      exact ⟨Chan.make 1, by simp [Tunnel.RegisterResponseChan], rfl, rfl⟩
    · obtain ⟨c, hc, ho, hp⟩ := h.1 e (hsub.subset he)
      refine ⟨c, ?_, ho, hp⟩
      simp only [Tunnel.RegisterResponseChan]
      rw [List.getElem?_append_left (getElem?_lt hc)]
      exact hc
  · simp only [Tunnel.RegisterResponseChan, AList.insert_entries, List.map_cons,
      List.nodup_cons]
    refine ⟨?_, (h.2.sublist (hsub.map _))⟩
    intro hmem
    obtain ⟨e, he, hee⟩ := List.mem_map.mp hmem
    obtain ⟨c, hc, _, _⟩ := h.1 e (hsub.subset he)
    have := getElem?_lt hc
    omega

theorem Tunnel.unregister_none {t : Tunnel} {chans : List Chan} {id : String}
    (hl : t.responseChans.lookup id = none) :
    t.UnregisterResponseChan chans id = some (t, chans) := by
  simp [Tunnel.UnregisterResponseChan, hl]

theorem Tunnel.unregister_some {t : Tunnel} {chans : List Chan} {id : String}
    (h : t.SlotsOK chans) {ch : Nat} {c : Chan}
    (hl : t.responseChans.lookup id = some ch) (hc : chans[ch]? = some c) :
    t.UnregisterResponseChan chans id =
      some ({ t with responseChans := t.responseChans.erase id },
        chans.set ch { c with closed := true }) := by
  obtain ⟨c', hc', hopen, _⟩ := h.lookup hl
  rw [hc] at hc'; cases hc'
  simp [Tunnel.UnregisterResponseChan, hl, hc, Chan.close, hopen]

/-- Unregistering a slot keeps the slot table well formed: the closed channel is no
longer in the table. -/
theorem Tunnel.SlotsOK.unregister {t : Tunnel} {chans : List Chan} (h : t.SlotsOK chans)
    {id : String} {ch : Nat} (hl : t.responseChans.lookup id = some ch) (c1 : Chan) :
    Tunnel.SlotsOK { t with responseChans := t.responseChans.erase id } (chans.set ch c1) := by
  have hsub : (List.kerase id t.responseChans.entries).Sublist t.responseChans.entries :=
    List.kerase_sublist _ _
  constructor
  · intro e he
    have he' : e ∈ List.kerase id t.responseChans.entries := he
    obtain ⟨c, hc, ho, hp⟩ := h.1 e (hsub.subset he')
    refine ⟨c, ?_, ho, hp⟩
    have hne : ch ≠ e.2 := by
      intro heq
      have hle : t.responseChans.lookup e.1 = some e.2 :=
        AList.mem_lookup_iff.mpr (hsub.subset he')
      have hid : id = e.1 := h.inj hl (heq ▸ hle)
      have hk : e.1 ∈ (t.responseChans.erase id).keys := by
        simp only [AList.keys, List.keys]
        exact List.mem_map_of_mem _ he
      have : (t.responseChans.erase id).lookup e.1 = none := by
        rw [← hid]; exact AList.lookup_erase id _
      exact (AList.lookup_eq_none.mp this) (AList.mem_keys.mpr hk)
    rw [getElem?_set_other c1 hne]
    exact hc
  · exact h.2.sublist (hsub.map _)

/-! ## Go maps: number of entries -/

theorem mem_of_lookup {s : AList (fun _ : String => Nat)} {k : String} {v : Nat}
    (h : s.lookup k = some v) : k ∈ s := by
  apply AList.lookup_isSome.mp
  rw [h]; rfl

theorem keys_length_insert_of_mem (s : AList (fun _ : String => Nat)) (v : Nat) {k : String}
    (h : k ∈ s) : (s.insert k v).keys.length = s.keys.length := by
  have hk : k ∈ s.keys := AList.mem_keys.mp h
  have hpos : 0 < s.keys.length := List.length_pos_of_mem hk
  rw [AList.keys_insert, List.length_cons, List.length_erase_of_mem hk]
  omega

theorem keys_length_insert_of_not_mem (s : AList (fun _ : String => Nat)) (v : Nat)
    {k : String} (h : k ∉ s) : (s.insert k v).keys.length = s.keys.length + 1 := by
  have hk : k ∉ s.keys := fun hm => h (AList.mem_keys.mpr hm)
  rw [AList.keys_insert, List.length_cons, List.erase_of_not_mem hk]


/-! ## C1: DispatchMessage -/

/-- C1. `DispatchMessage` on a slot table of open capacity-1 slots returns normally
and changes nothing but the buffer of the slot registered under `m.ID`: an empty
buffer receives `m`; a full buffer keeps its frame and `m` is dropped; without a slot
under `m.ID` the channel heap is unchanged. The channels of all other registered IDs
are unchanged, and the slot table itself (the registered IDs) is only read. -/
theorem dispatchMessage_slot (t : Tunnel) (chans : List Chan) (m : Message)
    (h : t.SlotsOK chans) :
    ∃ chans', t.DispatchMessage chans m = some chans' ∧
      (∀ a c, t.responseChans.lookup m.ID = some a → chans[a]? = some c → c.buf = [] →
        chans'[a]? = some { c with buf := [m] }) ∧
      (∀ a c, t.responseChans.lookup m.ID = some a → chans[a]? = some c → c.buf ≠ [] →
        chans'[a]? = some c) ∧
      (t.responseChans.lookup m.ID = none → chans' = chans) ∧
      (∀ id a, id ≠ m.ID → t.responseChans.lookup id = some a → chans'[a]? = chans[a]?) ∧
      chans'.length = chans.length ∧ t.SlotsOK chans' := by
  cases hl : t.responseChans.lookup m.ID with
  | none =>
    refine ⟨chans, Tunnel.dispatch_none hl, ?_, ?_, ?_, ?_, rfl, h⟩ <;> simp
  | some ch =>
    obtain ⟨c, hc, hopen, hcap⟩ := h.lookup hl
    refine ⟨chans.set ch (c.deliver m), Tunnel.dispatch_some h hl hc, ?_, ?_, ?_, ?_, ?_, ?_⟩
    · intro a c' ha hc' hb
      cases ha
      rw [hc] at hc'; cases hc'
      rw [getElem?_set_self hc]
      simp [Chan.deliver, hb]
    · intro a c' ha hc' hb
      cases ha
      rw [hc] at hc'; cases hc'
      rw [getElem?_set_self hc]
      simp [Chan.deliver, hb]
    · intro hn; cases hn
    · intro id a hid ha
      have hne : ch ≠ a := fun e => hid (h.inj (e ▸ ha) hl)
      exact getElem?_set_other _ hne
    · simp
    · exact h.set ch _ (by rw [Chan.deliver_closed]; exact hopen)
        (by rw [Chan.deliver_cap]; exact hcap)

/-- C1, at a concrete tunnel: one slot under "r", empty. -/
theorem dispatchMessage_slot_witness :
    ∃ chans', (slotTunnel "r" 0).DispatchMessage [Chan.make 1] { ID := "r" } = some chans' ∧
      chans'[0]? = some { buf := [{ ID := "r" }], cap := 1, closed := false } := by
  obtain ⟨chans', h1, h2, -⟩ :=
    dispatchMessage_slot (slotTunnel "r" 0) [Chan.make 1] { ID := "r" } (by decide)
  exact ⟨chans', h1, h2 0 (Chan.make 1) (by decide) (by decide) (by decide)⟩

/-! ## C2: RegisterResponseChan on a registered ID -/

/-- C2, refuted. A slot is registered under "r" with a frame in its buffer; a second
`RegisterResponseChan("r")` does not leave it in place: "r" now maps to another
channel, which is empty. -/
theorem registerResponseChan_twice_replaces :
    ((slotTunnel "r" 0).RegisterResponseChan
        [{ buf := [{ ID := "r" }], cap := 1, closed := false }] "r").1.responseChans.lookup "r"
      ≠ (slotTunnel "r" 0).responseChans.lookup "r" := by
  decide

/-- C2, amended. `RegisterResponseChan` cannot fail. When a slot exists under
`requestID` it is replaced: the call returns a new channel, different from the old one,
empty, open and of capacity 1, and `requestID` maps to it afterwards. The old channel
stays in the heap as it was (its buffered frame included, and not closed) but is no
longer registered. Slots under other IDs are unchanged, and so is the number of
registered IDs. -/
theorem registerResponseChan_registered (t : Tunnel) (chans : List Chan) (requestID : String)
    (a : Nat) (c : Chan) (hl : t.responseChans.lookup requestID = some a)
    (hc : chans[a]? = some c) :
    ∃ t' chans' ch, t.RegisterResponseChan chans requestID = (t', chans', ch) ∧
      ch ≠ a ∧ t'.responseChans.lookup requestID = some ch ∧
      chans'[ch]? = some { buf := [], cap := 1, closed := false } ∧
      chans'[a]? = some c ∧
      (∀ id, id ≠ requestID → t'.responseChans.lookup id = t.responseChans.lookup id) ∧
      (∀ b, b < chans.length → chans'[b]? = chans[b]?) ∧
      t'.responseChans.keys.length = t.responseChans.keys.length := by
  have hlt := getElem?_lt hc
  refine ⟨_, _, _, rfl, ?_, ?_, ?_, ?_, ?_, ?_, keys_length_insert_of_mem _ _ (mem_of_lookup hl)⟩
  · omega
  · exact AList.lookup_insert _
  · simp [Chan.make]
  · rw [List.getElem?_append_left hlt]; exact hc
  · intro id hid
    exact AList.lookup_insert_ne hid
  · intro b hb
    exact List.getElem?_append_left hb

/-- C2, amended, at a concrete tunnel. -/
theorem registerResponseChan_registered_witness :
    ∃ t' chans' ch,
      (slotTunnel "r" 0).RegisterResponseChan
        [{ buf := [{ ID := "r" }], cap := 1, closed := false }] "r" = (t', chans', ch) ∧
      ch ≠ 0 ∧ t'.responseChans.lookup "r" = some ch ∧
      chans'[0]? = some { buf := [{ ID := "r" }], cap := 1, closed := false } := by
  obtain ⟨t', chans', ch, h1, h2, h3, -, h5, -, -, -⟩ :=
    registerResponseChan_registered (slotTunnel "r" 0)
      [{ buf := [{ ID := "r" }], cap := 1, closed := false }] "r" 0
      { buf := [{ ID := "r" }], cap := 1, closed := false } (by decide) (by decide)
  exact ⟨t', chans', ch, h1, h2, h3, h5⟩

/-! ## C3: UnregisterResponseChan -/

/-- C3. On a well-formed slot table `UnregisterResponseChan(id)` returns normally;
afterwards no slot is registered under `id`, the channel that was registered is closed
(its buffer as it was), slots under other IDs and their channels are unchanged, the
other fields of the tunnel are unchanged, and a second call changes nothing. -/
theorem unregisterResponseChan_idempotent (t : Tunnel) (chans : List Chan) (id : String)
    (h : t.SlotsOK chans) :
    ∃ t' chans', t.UnregisterResponseChan chans id = some (t', chans') ∧
      t'.responseChans.lookup id = none ∧
      (∀ a c, t.responseChans.lookup id = some a → chans[a]? = some c →
        chans'[a]? = some { c with closed := true }) ∧
      (∀ id', id' ≠ id → t'.responseChans.lookup id' = t.responseChans.lookup id') ∧
      (∀ id' a, id' ≠ id → t.responseChans.lookup id' = some a → chans'[a]? = chans[a]?) ∧
      (t'.ID = t.ID ∧ t'.Conn = t.Conn ∧ t'.LastPing = t.LastPing) ∧
      t'.UnregisterResponseChan chans' id = some (t', chans') ∧ t'.SlotsOK chans' := by
  cases hl : t.responseChans.lookup id with
  | none =>
    refine ⟨t, chans, Tunnel.unregister_none hl, hl, ?_, ?_, ?_, ⟨rfl, rfl, rfl⟩,
      Tunnel.unregister_none hl, h⟩
    · intro a c ha; cases ha
    · intro id' _; rfl
    · intro id' a _ _; rfl
  | some ch =>
    obtain ⟨c, hc, hopen, hcap⟩ := h.lookup hl
    refine ⟨_, _, Tunnel.unregister_some h hl hc, AList.lookup_erase id _, ?_, ?_, ?_,
      ⟨rfl, rfl, rfl⟩, ?_, h.unregister hl _⟩
    · intro a c' ha hc'
      cases ha
      rw [hc] at hc'; cases hc'
      exact getElem?_set_self hc
    · intro id' hid
      exact AList.lookup_erase_ne hid
    · intro id' a hid ha
      have hne : ch ≠ a := fun e => hid (h.inj (e ▸ ha) hl)
      exact getElem?_set_other _ hne
    · exact Tunnel.unregister_none (AList.lookup_erase id _)

/-- C3, at a concrete tunnel: the slot under "r" holds a frame. -/
theorem unregisterResponseChan_idempotent_witness :
    ∃ t' chans',
      (slotTunnel "r" 0).UnregisterResponseChan
        [{ buf := [{ ID := "r" }], cap := 1, closed := false }] "r" = some (t', chans') ∧
      t'.responseChans.lookup "r" = none ∧
      chans'[0]? = some { buf := [{ ID := "r" }], cap := 1, closed := true } ∧
      t'.UnregisterResponseChan chans' "r" = some (t', chans') := by
  obtain ⟨t', chans', h1, h2, h3, -, -, -, h7, -⟩ :=
    unregisterResponseChan_idempotent (slotTunnel "r" 0)
      [{ buf := [{ ID := "r" }], cap := 1, closed := false }] "r" (by decide)
  exact ⟨t', chans', h1, h2,
    h3 0 { buf := [{ ID := "r" }], cap := 1, closed := false } (by decide) (by decide), h7⟩


/-! ## C4: order of the frames of one stream -/

theorem Chan.recv_got {c : Chan} {msg : Message} {rest : Chan} (h : c.recv = Recv.got msg rest) :
    c.buf = msg :: rest.buf ∧ rest.closed = c.closed ∧ rest.cap = c.cap := by
  unfold Chan.recv at h
  split at h
  · rename_i m r hb
    cases h
    exact ⟨hb, rfl, rfl⟩
  · split at h <;> cases h

/-- From any well-formed state, an interleaving runs to its end, and what the consumer
of the slot `id` receives is a subsequence of the frames in its buffer followed by the
frames dispatched to `id`. -/
theorem runSlot_sublist (t : Tunnel) (id : String) (ch : Nat)
    (hl : t.responseChans.lookup id = some ch) :
    ∀ (evs : List SlotEvent) (chans : List Chan) (got : List Message) (c : Chan),
      t.SlotsOK chans → chans[ch]? = some c →
      ∃ chans' l, runSlot t ch evs chans got = some (chans', got ++ l) ∧
        l.Sublist (c.buf ++ dispatchedTo id evs) := by
  intro evs
  induction evs with
  | nil =>
    intro chans got c _ _
    exact ⟨chans, [], by simp [runSlot], List.nil_sublist _⟩
  | cons ev evs ih =>
    intro chans got c hok hc
    cases ev with
    | dispatch m =>
      cases hm : t.responseChans.lookup m.ID with
      | none =>
        have hne : m.ID ≠ id := by
          intro e; rw [e, hl] at hm; cases hm
        obtain ⟨chans', l, hr, hs⟩ := ih chans got c hok hc
        refine ⟨chans', l, ?_, ?_⟩
        · simp [runSlot, Tunnel.dispatch_none hm, hr]
        · simpa [dispatchedTo, hne] using hs
      | some a =>
        obtain ⟨ca, hca, hopen, hcap⟩ := hok.lookup hm
        have hok1 : t.SlotsOK (chans.set a (ca.deliver m)) :=
          hok.set a _ (by rw [Chan.deliver_closed]; exact hopen)
            (by rw [Chan.deliver_cap]; exact hcap)
        by_cases hid : m.ID = id
        · have hach : a = ch := by
            rw [hid, hl] at hm; cases hm; rfl
          subst hach
          rw [hc] at hca; cases hca
          obtain ⟨chans', l, hr, hs⟩ :=
            ih (chans.set a (c.deliver m)) got (c.deliver m) hok1 (getElem?_set_self hc)
          refine ⟨chans', l, ?_, ?_⟩
          · simp [runSlot, Tunnel.dispatch_some hok hm hc, hr]
          · simp only [dispatchedTo, hid, if_true]
            by_cases hb : c.buf = []
            · simpa [Chan.deliver, hb] using hs
            · have hd : c.deliver m = c := by simp [Chan.deliver, hb]
              rw [hd] at hs
              exact hs.trans
                (List.Sublist.append_left (List.sublist_cons_self m _) c.buf)
        · have hne : a ≠ ch := fun e => hid (hok.inj hm (e ▸ hl))
          obtain ⟨chans', l, hr, hs⟩ :=
            ih (chans.set a (ca.deliver m)) got c hok1
              (by rw [getElem?_set_other _ hne]; exact hc)
          refine ⟨chans', l, ?_, ?_⟩
          · simp [runSlot, Tunnel.dispatch_some hok hm hca, hr]
          · simpa [dispatchedTo, hid] using hs
    | receive =>
      cases hrecv : c.recv with
      | got msg rest =>
        obtain ⟨hbuf, hcl, hcp⟩ := Chan.recv_got hrecv
        obtain ⟨c', hc', hopen, hcap⟩ := hok.lookup hl
        rw [hc] at hc'; cases hc'
        have hok1 : t.SlotsOK (chans.set ch rest) :=
          hok.set ch rest (by rw [hcl]; exact hopen) (by rw [hcp]; exact hcap)
        obtain ⟨chans', l, hr, hs⟩ :=
          ih (chans.set ch rest) (got ++ [msg]) rest hok1 (getElem?_set_self hc)
        refine ⟨chans', msg :: l, ?_, ?_⟩
        · simp [runSlot, hc, hrecv, hr]
        · rw [hbuf]
          exact List.Sublist.cons₂ msg hs
      | done =>
        obtain ⟨chans', l, hr, hs⟩ := ih chans got c hok hc
        exact ⟨chans', l, by simp [runSlot, hc, hrecv, hr], by simpa [dispatchedTo] using hs⟩
      | block =>
        obtain ⟨chans', l, hr, hs⟩ := ih chans got c hok hc
        exact ⟨chans', l, by simp [runSlot, hc, hrecv, hr], by simpa [dispatchedTo] using hs⟩

/-- The state right after `RegisterResponseChan`: the slot table is well formed, the
ID maps to the returned channel, and that channel is empty. -/
theorem Tunnel.register_fresh {t t1 : Tunnel} {chans chans1 : List Chan} {id : String}
    {ch : Nat} (h : t.SlotsOK chans)
    (hreg : t.RegisterResponseChan chans id = (t1, chans1, ch)) :
    t1.SlotsOK chans1 ∧ t1.responseChans.lookup id = some ch ∧
      chans1[ch]? = some (Chan.make 1) := by
  have hok := h.register id
  simp only [Tunnel.RegisterResponseChan, Prod.mk.injEq] at hreg hok
  obtain ⟨rfl, rfl, rfl⟩ := hreg
  exact ⟨hok, AList.lookup_insert _, by simp⟩

/-- C4. A stream starts with `RegisterResponseChan(id)` on a well-formed slot table,
which returns the channel `ch`. Every interleaving of `DispatchMessage` calls (for this
or any other stream ID) with receives of the stream's consumer on `ch` runs to its end
without a panic, and the sequence of frames the consumer receives is an
order-preserving subsequence of the sequence of frames dispatched to `id`. -/
theorem stream_frames_in_order (t t1 : Tunnel) (chans chans1 : List Chan) (id : String)
    (ch : Nat) (evs : List SlotEvent) (h : t.SlotsOK chans)
    (hreg : t.RegisterResponseChan chans id = (t1, chans1, ch)) :
    ∃ chans' got, runSlot t1 ch evs chans1 [] = some (chans', got) ∧
      got.Sublist (dispatchedTo id evs) := by
  obtain ⟨hok, hl, hc⟩ := Tunnel.register_fresh h hreg
  obtain ⟨chans', l, hr, hs⟩ := runSlot_sublist t1 id ch hl evs chans1 [] (Chan.make 1) hok hc
  exact ⟨chans', l, by simpa using hr, by simpa [Chan.make] using hs⟩

/-- C4, at a concrete interleaving: two frames are dispatched before the consumer
receives, then a third one; the consumer receives the first and the third. -/
theorem stream_frames_in_order_witness :
    ∃ chans' got,
      runSlot (slotTunnel "r" 0) 0
        [SlotEvent.dispatch { ID := "r", SSEData := "a" },
          SlotEvent.dispatch { ID := "r", SSEData := "b" }, SlotEvent.receive,
          SlotEvent.dispatch { ID := "r", SSEData := "c" }, SlotEvent.receive]
        [Chan.make 1] [] = some (chans', got) ∧
      got.Sublist (dispatchedTo "r"
        [SlotEvent.dispatch { ID := "r", SSEData := "a" },
          SlotEvent.dispatch { ID := "r", SSEData := "b" }, SlotEvent.receive,
          SlotEvent.dispatch { ID := "r", SSEData := "c" }, SlotEvent.receive]) :=
  stream_frames_in_order (NewTunnel "t1" 0 0) (slotTunnel "r" 0) [] [Chan.make 1] "r" 0 _
    (by decide) rfl


/-! ## C5: bytes written to the public socket of a TCP session -/

theorem Tunnel.dispatch_ok {t : Tunnel} {chans : List Chan} (h : t.SlotsOK chans) (m : Message) :
    ∃ chans', t.DispatchMessage chans m = some chans' ∧ t.SlotsOK chans' := by
  cases hm : t.responseChans.lookup m.ID with
  | none => exact ⟨chans, Tunnel.dispatch_none hm, h⟩
  | some a =>
    obtain ⟨ca, hca, hopen, hcap⟩ := h.lookup hm
    exact ⟨_, Tunnel.dispatch_some h hm hca,
      h.set a _ (by rw [Chan.deliver_closed]; exact hopen) (by rw [Chan.deliver_cap]; exact hcap)⟩

theorem bodies_cons (m : Message) (ms : List Message) : bodies (m :: ms) = m.Body ++ bodies ms := by
  simp [bodies]

/-- After the handler has returned nothing more is written. -/
theorem runTCP_returned (connID : String) (ch : Nat) :
    ∀ (evs : List TCPEvent) (t : Tunnel) (chans : List Chan) (s : TCPSession),
      t.SlotsOK chans → s.returned = true →
      ∃ t' chans' s', runTCP connID ch evs t chans s = some (t', chans', s') ∧
        s'.written = s.written := by
  intro evs
  induction evs with
  | nil =>
    intro t chans s _ _
    exact ⟨t, chans, s, by simp [runTCP], rfl⟩
  | cons ev evs ih =>
    intro t chans s hok hret
    cases ev with
    | dispatch m =>
      obtain ⟨chans1, hd, hok1⟩ := Tunnel.dispatch_ok hok m
      obtain ⟨t', chans', s', hr, hw⟩ := ih t chans1 s hok1 hret
      exact ⟨t', chans', s', by simp [runTCP, hd, hr], hw⟩
    | loop w =>
      obtain ⟨t', chans', s', hr, hw⟩ := ih t chans s hok hret
      exact ⟨t', chans', s', by simp [runTCP, hret, hr], hw⟩

/-- When the handler returns, the deferred unregistration succeeds and nothing more is
written in the rest of the interleaving. -/
theorem runTCP_after_return (connID : String) (ch : Nat) (evs : List TCPEvent)
    (t : Tunnel) (chans : List Chan) (s : TCPSession) (c : Chan)
    (hl : t.responseChans.lookup connID = some ch) (hok : t.SlotsOK chans)
    (hc : chans[ch]? = some c) :
    ∃ t1 chans1 s1, tcpReturn connID t chans s = some (t1, chans1, s1) ∧
      ∃ t' chans' s', runTCP connID ch evs t1 chans1 s1 = some (t', chans', s') ∧
        s'.written = s.written := by
  have hu := Tunnel.unregister_some hok hl hc
  refine ⟨{ t with responseChans := t.responseChans.erase connID },
    chans.set ch { c with closed := true }, { s with returned := true },
    by simp [tcpReturn, hu], ?_⟩
  obtain ⟨t', chans', s', hr, hw⟩ :=
    runTCP_returned connID ch evs _ _ { s with returned := true } (hok.unregister hl _) rfl
  exact ⟨t', chans', s', hr, hw⟩

/-- Selecting the TCPData frames among the frames waiting in a channel, one frame at a
time. -/
theorem filter_data_cons (msg : Message) (rest : List Message) :
    (msg :: rest).filter (fun m => decide (m.Type_ = MessageTypeTCPData)) =
      if msg.Type_ = MessageTypeTCPData then
        msg :: rest.filter (fun m => decide (m.Type_ = MessageTypeTCPData))
      else rest.filter (fun m => decide (m.Type_ = MessageTypeTCPData)) := by
  by_cases h : msg.Type_ = MessageTypeTCPData <;> simp [List.filter_cons, h]

/-- While the handler runs, what it writes in the rest of an interleaving are the
bodies of a subsequence of the TCPData frames waiting in its channel followed by the
TCPData frames dispatched for `connID`. -/
theorem runTCP_sublist (connID : String) (ch : Nat) (t : Tunnel)
    (hl : t.responseChans.lookup connID = some ch) :
    ∀ (evs : List TCPEvent) (chans : List Chan) (s : TCPSession) (c : Chan),
      t.SlotsOK chans → chans[ch]? = some c → s.returned = false →
      ∃ t' chans' s' l, runTCP connID ch evs t chans s = some (t', chans', s') ∧
        l.Sublist (c.buf.filter (fun m => decide (m.Type_ = MessageTypeTCPData))
          ++ tcpDataOf connID evs) ∧
        s'.written = s.written ++ bodies l := by
  intro evs
  induction evs with
  | nil =>
    intro chans s c _ _ _
    exact ⟨t, chans, s, [], by simp [runTCP], List.nil_sublist _, by simp [bodies]⟩
  | cons ev evs ih =>
    intro chans s c hok hc hret
    cases ev with
    | dispatch m =>
      cases hm : t.responseChans.lookup m.ID with
      | none =>
        have hne : m.ID ≠ connID := by
          intro e; rw [e, hl] at hm; cases hm
        obtain ⟨t', chans', s', l, hr, hs, hw⟩ := ih chans s c hok hc hret
        refine ⟨t', chans', s', l, ?_, ?_, hw⟩
        · simp [runTCP, Tunnel.dispatch_none hm, hr]
        · simpa [tcpDataOf, isTCPData, hne] using hs
      | some a =>
        obtain ⟨ca, hca, hopen, hcap⟩ := hok.lookup hm
        have hok1 : t.SlotsOK (chans.set a (ca.deliver m)) :=
          hok.set a _ (by rw [Chan.deliver_closed]; exact hopen)
            (by rw [Chan.deliver_cap]; exact hcap)
        by_cases hid : m.ID = connID
        · have hach : a = ch := by
            rw [hid, hl] at hm; cases hm; rfl
          subst hach
          rw [hc] at hca; cases hca
          obtain ⟨t', chans', s', l, hr, hs, hw⟩ :=
            ih (chans.set a (c.deliver m)) s (c.deliver m) hok1 (getElem?_set_self hc) hret
          refine ⟨t', chans', s', l, ?_, ?_, hw⟩
          · simp [runTCP, Tunnel.dispatch_some hok hm hc, hr]
          · by_cases hb : c.buf = []
            · by_cases hty : m.Type_ = MessageTypeTCPData
              · simpa [Chan.deliver, hb, tcpDataOf, isTCPData, hid, hty] using hs
              · simpa [Chan.deliver, hb, tcpDataOf, isTCPData, hid, hty] using hs
            · have hd : c.deliver m = c := by simp [Chan.deliver, hb]
              rw [hd] at hs
              by_cases hty : m.Type_ = MessageTypeTCPData
              · simp only [tcpDataOf, isTCPData, hid, hty, decide_True, Bool.and_self, if_true]
                exact hs.trans (List.Sublist.append_left (List.sublist_cons_self m _) _)
              · simpa [tcpDataOf, isTCPData, hid, hty] using hs
        · have hne : a ≠ ch := fun e => hid (hok.inj hm (e ▸ hl))
          obtain ⟨t', chans', s', l, hr, hs, hw⟩ :=
            ih (chans.set a (ca.deliver m)) s c hok1
              (by rw [getElem?_set_other _ hne]; exact hc) hret
          refine ⟨t', chans', s', l, ?_, ?_, hw⟩
          · simp [runTCP, Tunnel.dispatch_some hok hm hca, hr]
          · simpa [tcpDataOf, isTCPData, hid] using hs
    | loop w =>
      obtain ⟨c', hc', hopen, hcap⟩ := hok.lookup hl
      rw [hc] at hc'; cases hc'
      obtain ⟨wr, pc, rt⟩ := s
      simp only at hret
      subst hret
      cases hrecv : c.recv with
      | block =>
        obtain ⟨t', chans', s', l, hr, hs, hw⟩ := ih chans { written := wr, publicClosed := pc, returned := false } c hok hc rfl
        refine ⟨t', chans', s', l, ?_, ?_, hw⟩
        · simp [runTCP, tcpLoopBody, hc, hrecv, hr]
        · simpa [tcpDataOf] using hs
      | done =>
        obtain ⟨t1, chans1, s1, h1, t', chans', s', hr, hw⟩ :=
          runTCP_after_return connID ch evs t chans
            { written := wr, publicClosed := pc, returned := false } c hl hok hc
        refine ⟨t', chans', s', [], ?_, List.nil_sublist _, by simpa [bodies] using hw⟩
        simp [runTCP, tcpLoopBody, hc, hrecv, h1, hr]
      | got msg rest =>
        obtain ⟨hbuf, hcl, hcp⟩ := Chan.recv_got hrecv
        have hok1 : t.SlotsOK (chans.set ch rest) :=
          hok.set ch rest (by rw [hcl]; exact hopen) (by rw [hcp]; exact hcap)
        have hc1 : (chans.set ch rest)[ch]? = some rest := getElem?_set_self hc
        by_cases hty : msg.Type_ = MessageTypeTCPData
        · cases w with
          | true =>
            obtain ⟨t', chans', s', l, hr, hs, hw⟩ :=
              ih (chans.set ch rest) { written := wr ++ msg.Body, publicClosed := pc, returned := false }
                rest hok1 hc1 rfl
            refine ⟨t', chans', s', msg :: l, ?_, ?_, ?_⟩
            · simp [runTCP, tcpLoopBody, hc, hrecv, hty, hr]
            · rw [hbuf, filter_data_cons, if_pos hty]
              simpa [tcpDataOf] using hs
            · rw [hw, bodies_cons]; simp
          | false =>
            obtain ⟨t1, chans1, s1, h1, t', chans', s', hr, hw⟩ :=
              runTCP_after_return connID ch evs t (chans.set ch rest)
                { written := wr, publicClosed := true, returned := false } rest hl hok1 hc1
            refine ⟨t', chans', s', [], ?_, List.nil_sublist _, by simpa [bodies] using hw⟩
            simp [runTCP, tcpLoopBody, hc, hrecv, hty, h1, hr]
        · by_cases hcl2 : msg.Type_ = MessageTypeTCPClose ∨ msg.Type_ = MessageTypeError
          · obtain ⟨t1, chans1, s1, h1, t', chans', s', hr, hw⟩ :=
              runTCP_after_return connID ch evs t (chans.set ch rest)
                { written := wr, publicClosed := true, returned := false } rest hl hok1 hc1
            refine ⟨t', chans', s', [], ?_, List.nil_sublist _, by simpa [bodies] using hw⟩
            simp [runTCP, tcpLoopBody, hc, hrecv, hty, hcl2, h1, hr]
          · obtain ⟨t', chans', s', l, hr, hs, hw⟩ :=
              ih (chans.set ch rest) { written := wr, publicClosed := pc, returned := false }
                rest hok1 hc1 rfl
            refine ⟨t', chans', s', l, ?_, ?_, hw⟩
            · simp [runTCP, tcpLoopBody, hc, hrecv, hty, hcl2, hr]
            · rw [hbuf, filter_data_cons, if_neg hty]
              simpa [tcpDataOf] using hs

/-- When every frame is consumed before the next one is dispatched, and every write
succeeds, all bodies are written. -/
theorem runTCP_alternating (connID : String) (ch : Nat) (t : Tunnel)
    (hl : t.responseChans.lookup connID = some ch) :
    ∀ (ms : List Message) (chans : List Chan) (s : TCPSession) (c : Chan),
      t.SlotsOK chans → chans[ch]? = some c → c.buf = [] → s.returned = false →
      (∀ m ∈ ms, m.ID = connID ∧ m.Type_ = MessageTypeTCPData) →
      ∃ t' chans' s', runTCP connID ch (alternating ms) t chans s = some (t', chans', s') ∧
        s'.written = s.written ++ bodies ms ∧ tcpDataOf connID (alternating ms) = ms := by
  intro ms
  induction ms with
  | nil =>
    intro chans s c _ _ _ _ _
    exact ⟨t, chans, s, by simp [alternating, runTCP], by simp [bodies], rfl⟩
  | cons m ms ih =>
    intro chans s c hok hc hb hret hms
    obtain ⟨hid, hty⟩ := hms m (List.mem_cons_self _ _)
    obtain ⟨c', hc', hopen, hcap⟩ := hok.lookup hl
    rw [hc] at hc'; cases hc'
    obtain ⟨wr, pc, rt⟩ := s
    simp only at hret
    subst hret
    have hlm : t.responseChans.lookup m.ID = some ch := by rw [hid]; exact hl
    have hd : c.deliver m = { c with buf := [m] } := by simp [Chan.deliver, hb]
    have hc1 : (chans.set ch (c.deliver m))[ch]? = some (c.deliver m) := getElem?_set_self hc
    have hrecv : (c.deliver m).recv = Recv.got m { c with buf := [] } := by
      rw [hd]; rfl
    have hok2 : t.SlotsOK ((chans.set ch (c.deliver m)).set ch { c with buf := [] }) :=
      (hok.set ch _ (by rw [Chan.deliver_closed]; exact hopen)
        (by rw [Chan.deliver_cap]; exact hcap)).set ch _ hopen hcap
    obtain ⟨t', chans', s', hr, hw, hdata⟩ :=
      ih ((chans.set ch (c.deliver m)).set ch { c with buf := [] })
        { written := wr ++ m.Body, publicClosed := pc, returned := false } { c with buf := [] }
        hok2 (getElem?_set_self hc1) rfl rfl
        (fun x hx => hms x (List.mem_cons_of_mem _ hx))
    refine ⟨t', chans', s', ?_, ?_, ?_⟩
    · simp only [alternating, runTCP, Tunnel.dispatch_some hok hlm hc, tcpLoopBody, hc1, hrecv,
        hty, if_true]
      simpa using hr
    · rw [hw, bodies_cons]; simp
    · simp [alternating, tcpDataOf, isTCPData, hid, hty, hdata]

/-- C5, refuted. Two TCPData frames with bodies [1] and [2] are dispatched for the
session before the handler runs; the second finds the slot full and is dropped. The
handler writes [1] to the public socket, while the bodies of the frames the dispatcher
received for the session concatenate to [1, 2]. -/
theorem tcp_bytes_dropped_on_full_slot :
    (runTCP "c" 0
        [TCPEvent.dispatch { Type_ := MessageTypeTCPData, ID := "c", Body := [1] },
          TCPEvent.dispatch { Type_ := MessageTypeTCPData, ID := "c", Body := [2] },
          TCPEvent.loop true, TCPEvent.loop true]
        (slotTunnel "c" 0) [Chan.make 1]
        { written := [], publicClosed := false, returned := false }).map
      (fun r => r.2.2.written) = some [1] ∧
    bodies (tcpDataOf "c"
        [TCPEvent.dispatch { Type_ := MessageTypeTCPData, ID := "c", Body := [1] },
          TCPEvent.dispatch { Type_ := MessageTypeTCPData, ID := "c", Body := [2] },
          TCPEvent.loop true, TCPEvent.loop true]) = [1, 2] := by
  decide

/-- C5, amended. A TCP session registers its slot on a well-formed slot table. For
every interleaving `evs` of the dispatcher with the receive loop of
`handleTCPConnection`, the run ends without a panic and the bytes written to the public
socket are the concatenation of the bodies of an order-preserving subsequence of the
TCPData frames dispatched for `connID`. For the interleavings in which every frame
(`ms`, all TCPData frames of the session) is consumed before the next one is
dispatched and every write succeeds, the bytes written are the concatenation of the
bodies of all of them. -/
theorem tcp_written_subsequence (t t1 : Tunnel) (chans chans1 : List Chan) (connID : String)
    (ch : Nat) (evs : List TCPEvent) (ms : List Message) (h : t.SlotsOK chans)
    (hreg : t.RegisterResponseChan chans connID = (t1, chans1, ch))
    (hms : ∀ m ∈ ms, m.ID = connID ∧ m.Type_ = MessageTypeTCPData) :
    (∃ t' chans' s' l,
      runTCP connID ch evs t1 chans1 { written := [], publicClosed := false, returned := false }
        = some (t', chans', s') ∧
      l.Sublist (tcpDataOf connID evs) ∧ s'.written = bodies l) ∧
    (∃ t' chans' s',
      runTCP connID ch (alternating ms) t1 chans1
        { written := [], publicClosed := false, returned := false } = some (t', chans', s') ∧
      tcpDataOf connID (alternating ms) = ms ∧ s'.written = bodies ms) := by
  obtain ⟨hok, hl, hc⟩ := Tunnel.register_fresh h hreg
  constructor
  · obtain ⟨t', chans', s', l, hr, hs, hw⟩ :=
      runTCP_sublist connID ch t1 hl evs chans1
        { written := [], publicClosed := false, returned := false } (Chan.make 1) hok hc rfl
    exact ⟨t', chans', s', l, hr, by simpa [Chan.make] using hs, by simpa using hw⟩
  · obtain ⟨t', chans', s', hr, hw, hd⟩ :=
      runTCP_alternating connID ch t1 hl ms chans1
        { written := [], publicClosed := false, returned := false } (Chan.make 1) hok hc rfl rfl hms
    exact ⟨t', chans', s', hr, hd, by simpa using hw⟩

/-- C5, amended, at a concrete session: the interleaving of the refutation, and the
same two frames consumed one by one. -/
theorem tcp_written_subsequence_witness :
    (∃ t' chans' s' l,
      runTCP "c" 0
        [TCPEvent.dispatch { Type_ := MessageTypeTCPData, ID := "c", Body := [1] },
          TCPEvent.dispatch { Type_ := MessageTypeTCPData, ID := "c", Body := [2] },
          TCPEvent.loop true, TCPEvent.loop true]
        (slotTunnel "c" 0) [Chan.make 1]
        { written := [], publicClosed := false, returned := false } = some (t', chans', s') ∧
      l.Sublist (tcpDataOf "c"
        [TCPEvent.dispatch { Type_ := MessageTypeTCPData, ID := "c", Body := [1] },
          TCPEvent.dispatch { Type_ := MessageTypeTCPData, ID := "c", Body := [2] },
          TCPEvent.loop true, TCPEvent.loop true]) ∧ s'.written = bodies l) ∧
    (∃ t' chans' s',
      runTCP "c" 0
        (alternating [{ Type_ := MessageTypeTCPData, ID := "c", Body := [1] },
          { Type_ := MessageTypeTCPData, ID := "c", Body := [2] }])
        (slotTunnel "c" 0) [Chan.make 1]
        { written := [], publicClosed := false, returned := false } = some (t', chans', s') ∧
      tcpDataOf "c"
        (alternating [{ Type_ := MessageTypeTCPData, ID := "c", Body := [1] },
          { Type_ := MessageTypeTCPData, ID := "c", Body := [2] }]) =
        [{ Type_ := MessageTypeTCPData, ID := "c", Body := [1] },
          { Type_ := MessageTypeTCPData, ID := "c", Body := [2] }] ∧
      s'.written = bodies [{ Type_ := MessageTypeTCPData, ID := "c", Body := [1] },
          { Type_ := MessageTypeTCPData, ID := "c", Body := [2] }]) :=
  tcp_written_subsequence (NewTunnel "t1" 0 0) (slotTunnel "c" 0) [] [Chan.make 1] "c" 0 _ _
    (by decide) rfl (by decide)


/-! ## C6: RegisterTunnel -/

theorem Manager.pointersOK_lookup {m : Manager} (h : m.PointersOK) {id : String} {a : Nat}
    (ha : m.tunnels.lookup id = some a) : ∃ t, m.objs[a]? = some t := by
  have hmem : (⟨id, a⟩ : Sigma (fun _ : String => Nat)) ∈ m.tunnels.entries :=
    AList.mem_lookup_iff.mp ha
  have hlt : a < m.objs.length := h _ hmem
  exact ⟨m.objs[a], List.getElem?_eq_getElem hlt⟩

theorem not_mem_of_lookup_none {s : AList (fun _ : String => Nat)} {k : String}
    (h : s.lookup k = none) : k ∉ s :=
  AList.lookup_eq_none.mp h

/-- C6. `RegisterTunnel(id, conn)` returns a new tunnel handle; afterwards
`GetTunnel(id)` returns that handle, and the object behind it has ID `id`, transport
`conn`, the current time as `LastPing` and an empty slot table. If an entry existed
under `id`, `Close()` was called on the transport of its tunnel (and on nothing else);
if none existed nothing was closed. Entries under other IDs and all existing tunnel
objects are unchanged, and the number of entries grows by one exactly when `id` was not
registered before. -/
theorem registerTunnel_replaces (m : Manager) (id : String) (conn now : Nat)
    (h : m.PointersOK) :
    ∃ m' tunnel, m.RegisterTunnel id conn now = (m', tunnel) ∧
      m'.GetTunnel id = some tunnel ∧
      m'.objs[tunnel]? =
        some { ID := id, Conn := conn, LastPing := now, responseChans := ∅ } ∧
      (∀ a, m.GetTunnel id = some a →
        ∃ old, m.objs[a]? = some old ∧ m'.closedConns = old.Conn :: m.closedConns ∧
          a ≠ tunnel ∧ m'.tunnels.keys.length = m.tunnels.keys.length) ∧
      (m.GetTunnel id = none →
        m'.closedConns = m.closedConns ∧
          m'.tunnels.keys.length = m.tunnels.keys.length + 1) ∧
      (∀ id', id' ≠ id → m'.GetTunnel id' = m.GetTunnel id') ∧
      (∀ a, a < m.objs.length → m'.objs[a]? = m.objs[a]?) ∧
      m'.PointersOK := by
  refine ⟨_, _, rfl, AList.lookup_insert _, ?_, ?_, ?_, ?_, ?_, ?_⟩
  · simp [Manager.RegisterTunnel, NewTunnel]
  · intro a ha
    obtain ⟨old, hold⟩ := Manager.pointersOK_lookup h ha
    have hlt : a < m.objs.length := by
      rcases List.getElem?_eq_some_iff.mp hold with ⟨hlt, _⟩; exact hlt
    refine ⟨old, hold, ?_, ?_, keys_length_insert_of_mem _ _ (mem_of_lookup ha)⟩
    · simp only [Manager.GetTunnel] at ha
      simp [Manager.RegisterTunnel, ha, hold]
    · omega
  · intro hn
    simp only [Manager.GetTunnel] at hn
    refine ⟨by simp [Manager.RegisterTunnel, hn], ?_⟩
    exact keys_length_insert_of_not_mem _ _ (not_mem_of_lookup_none hn)
  · intro id' hid
    exact AList.lookup_insert_ne hid
  · intro a ha
    exact List.getElem?_append_left ha
  · intro e he
    simp only [Manager.RegisterTunnel, AList.insert_entries, List.mem_cons] at he
    simp only [Manager.RegisterTunnel, List.length_append, List.length_singleton]
    rcases he with he | he
    · subst he; simp
    · have := h e ((List.kerase_sublist _ _).subset he)
      omega

/-- C6, at a concrete registry: "a" is registered a second time, on connection 12. -/
theorem registerTunnel_replaces_witness :
    ∃ m' tunnel, twoTunnels.RegisterTunnel "a" 12 5 = (m', tunnel) ∧
      m'.GetTunnel "a" = some tunnel ∧
      m'.objs[tunnel]? = some { ID := "a", Conn := 12, LastPing := 5, responseChans := ∅ } ∧
      m'.closedConns = [10] ∧ m'.tunnels.keys.length = 2 ∧
      m'.GetTunnel "b" = twoTunnels.GetTunnel "b" := by
  obtain ⟨m', tunnel, h1, h2, h3, h4, -, h6, -⟩ :=
    registerTunnel_replaces twoTunnels "a" 12 5 (by decide)
  obtain ⟨old, ho, hc, -, hk⟩ := h4 0 (by decide)
  have hold : old.Conn = 10 := by
    have : twoTunnels.objs[0]? = some (NewTunnel "a" 10 0) := rfl
    rw [this] at ho; cases ho; rfl
  refine ⟨m', tunnel, h1, h2, h3, ?_, ?_, h6 "b" (by decide)⟩
  · rw [hc, hold]; rfl
  · rw [hk]; rfl

/-! ## C7: RemoveTunnel -/

/-- C7. After `RemoveTunnel(id)`, `GetTunnel(id)` reports absent. If a tunnel was
registered under `id`, `Close()` was called on its transport and on nothing else; if
none was, the manager is unchanged. Entries under other IDs and the tunnel objects are
unchanged. A second `RemoveTunnel(id)` returns the state of the first: the registry is
unchanged and nothing more is closed. -/
theorem removeTunnel_idempotent (m : Manager) (id : String) (h : m.PointersOK) :
    (m.RemoveTunnel id).GetTunnel id = none ∧
      (∀ a, m.GetTunnel id = some a →
        ∃ t, m.objs[a]? = some t ∧ (m.RemoveTunnel id).closedConns = t.Conn :: m.closedConns) ∧
      (m.GetTunnel id = none → m.RemoveTunnel id = m) ∧
      (∀ id', id' ≠ id → (m.RemoveTunnel id).GetTunnel id' = m.GetTunnel id') ∧
      (m.RemoveTunnel id).objs = m.objs ∧
      (m.RemoveTunnel id).RemoveTunnel id = m.RemoveTunnel id ∧
      (m.RemoveTunnel id).PointersOK := by
  cases hl : m.tunnels.lookup id with
  | none =>
    have hrm : m.RemoveTunnel id = m := by simp [Manager.RemoveTunnel, hl]
    rw [hrm]
    refine ⟨hl, ?_, fun _ => rfl, fun _ _ => rfl, rfl, hrm, h⟩
    intro a ha
    simp only [Manager.GetTunnel] at ha
    rw [hl] at ha; cases ha
  | some a =>
    obtain ⟨t, ht⟩ := Manager.pointersOK_lookup h hl
    have hrm : m.RemoveTunnel id =
        { m with closedConns := t.Conn :: m.closedConns, tunnels := m.tunnels.erase id } := by
      simp [Manager.RemoveTunnel, hl, ht]
    rw [hrm]
    refine ⟨AList.lookup_erase id _, ?_, ?_, ?_, rfl, ?_, ?_⟩
    · intro a' ha'
      simp only [Manager.GetTunnel] at ha'
      rw [hl] at ha'; cases ha'
      exact ⟨t, ht, rfl⟩
    · intro hn
      simp only [Manager.GetTunnel] at hn
      rw [hl] at hn; cases hn
    · intro id' hid
      exact AList.lookup_erase_ne hid
    · simp [Manager.RemoveTunnel, AList.lookup_erase]
    · intro e he
      exact h e ((List.kerase_sublist _ _).subset he)

/-- C7, at a concrete registry: "a", on connection 10, is removed. -/
theorem removeTunnel_idempotent_witness :
    (twoTunnels.RemoveTunnel "a").GetTunnel "a" = none ∧
      (twoTunnels.RemoveTunnel "a").closedConns = [10] ∧
      (twoTunnels.RemoveTunnel "a").GetTunnel "b" = twoTunnels.GetTunnel "b" ∧
      (twoTunnels.RemoveTunnel "a").RemoveTunnel "a" = twoTunnels.RemoveTunnel "a" := by
  obtain ⟨h1, h2, -, h4, -, h6, -⟩ := removeTunnel_idempotent twoTunnels "a" (by decide)
  obtain ⟨t, ht, hc⟩ := h2 0 (by decide)
  have hconn : t.Conn = 10 := by
    have : twoTunnels.objs[0]? = some (NewTunnel "a" 10 0) := rfl
    rw [this] at ht; cases ht; rfl
  exact ⟨h1, by rw [hc, hconn]; rfl, h4 "b" (by decide), h6⟩

/-! ## C8: GetSingleTunnelID -/

theorem rangeFirst_single {tunnels : AList (fun _ : String => Nat)} {id : String}
    (h : tunnels.keys = [id]) (pick : Nat) : rangeFirst tunnels pick = some id := by
  simp [rangeFirst, h, Nat.mod_one]

theorem rangeFirst_mem {tunnels : AList (fun _ : String => Nat)} (h : tunnels.keys.length ≠ 0)
    (pick : Nat) : ∃ id, rangeFirst tunnels pick = some id ∧ id ∈ tunnels.keys := by
  have hlt : pick % tunnels.keys.length < tunnels.keys.length :=
    Nat.mod_lt _ (Nat.pos_of_ne_zero h)
  refine ⟨tunnels.keys[pick % tunnels.keys.length], ?_, List.getElem_mem _⟩
  simp only [rangeFirst]
  exact List.getElem?_eq_getElem hlt

theorem lookup_of_mem_keys {s : AList (fun _ : String => Nat)} {k : String} (h : k ∈ s.keys) :
    ∃ a, s.lookup k = some a := by
  have : (s.lookup k).isSome = true := AList.lookup_isSome.mpr (AList.mem_keys.mpr h)
  exact Option.isSome_iff_exists.mp this

/-- C8. `GetSingleTunnelID` returns `(id, true)` for some `id` if and only if the
registry holds exactly one tunnel; the `id` it then returns is the key of that tunnel
(so `GetTunnel(id)` finds it); with no tunnel or at least two it returns `("", false)`.
This holds whatever entry the `range` starts at. -/
theorem getSingleTunnelID_iff (m : Manager) (pick : Nat) :
    ((∃ id, m.GetSingleTunnelID pick = (id, true)) ↔ m.tunnels.keys.length = 1) ∧
      (∀ id, m.GetSingleTunnelID pick = (id, true) →
        m.tunnels.keys = [id] ∧ ∃ a, m.GetTunnel id = some a) ∧
      (m.tunnels.keys.length ≠ 1 → m.GetSingleTunnelID pick = ("", false)) := by
  by_cases hlen : m.tunnels.keys.length = 1
  · obtain ⟨k, hk⟩ := List.length_eq_one.mp hlen
    have hget : m.GetSingleTunnelID pick = (k, true) := by
      simp [Manager.GetSingleTunnelID, hk, rangeFirst_single hk]
    refine ⟨⟨fun _ => hlen, fun _ => ⟨k, hget⟩⟩, ?_, fun hne => absurd hlen hne⟩
    intro id hid
    rw [hget] at hid
    cases hid
    exact ⟨hk, lookup_of_mem_keys (by rw [hk]; exact List.mem_singleton_self _)⟩
  · have hget : m.GetSingleTunnelID pick = ("", false) := by
      simp [Manager.GetSingleTunnelID, hlen]
    refine ⟨⟨?_, fun h1 => absurd h1 hlen⟩, ?_, fun _ => hget⟩
    · rintro ⟨id, hid⟩
      rw [hget] at hid; cases hid
    · intro id hid
      rw [hget] at hid; cases hid

/-- C8, at concrete registries: one tunnel "a", and the two tunnels "a" and "b". -/
theorem getSingleTunnelID_iff_witness :
    ((NewManager.RegisterTunnel "a" 10 0).1.tunnels.keys = ["a"] ∧
        ∃ a, (NewManager.RegisterTunnel "a" 10 0).1.GetTunnel "a" = some a) ∧
      twoTunnels.GetSingleTunnelID 1 = ("", false) :=
  ⟨(getSingleTunnelID_iff (NewManager.RegisterTunnel "a" 10 0).1 7).2.1 "a" (by decide),
    (getSingleTunnelID_iff twoTunnels 1).2.2 (by decide)⟩


/-! ## C9 and C10: tunnel selection of the HTTP ingress -/

/-- Once the tunnel is found and the body is read, `processProxyRequest` hands the
request to an adapter together with that tunnel. -/
theorem processProxyRequest_routed (toLower : String → String) (m : Manager) (req : Request)
    (requestID tunnelID path : String) (a : Nat) (body : List Nat)
    (ha : m.GetTunnel tunnelID = some a) (hb : req.Body = some body) :
    (processProxyRequest toLower m req requestID tunnelID path).routedTo m = some a := by
  simp only [processProxyRequest, ha, hb]
  split
  · rfl
  · split
    · rfl
    · exact ha

theorem processProxyRequest_absent (toLower : String → String) (m : Manager) (req : Request)
    (requestID tunnelID path : String) (ha : m.GetTunnel tunnelID = none) :
    processProxyRequest toLower m req requestID tunnelID path =
      Outcome.json 503 "隧道不存在或未连接" := by
  simp only [processProxyRequest, ha]

theorem getFirstTunnelID_present (m : Manager) (pick : Nat) (h : m.tunnels.keys.length ≠ 0) :
    ∃ id, m.GetFirstTunnelID pick = (id, true) ∧ id ∈ m.tunnels.keys := by
  obtain ⟨id, hid, hmem⟩ := rangeFirst_mem h pick
  exact ⟨id, by simp [Manager.GetFirstTunnelID, h, hid], hmem⟩

theorem getSingleTunnelID_many (m : Manager) (pick : Nat) (h : m.tunnels.keys.length ≠ 1) :
    m.GetSingleTunnelID pick = ("", false) := by
  simp [Manager.GetSingleTunnelID, h]

theorem getSingleTunnelID_one (m : Manager) (pick : Nat) {id : String}
    (h : m.tunnels.keys = [id]) : m.GetSingleTunnelID pick = (id, true) := by
  simp [Manager.GetSingleTunnelID, h, rangeFirst_single h]

/-- C9. Implicit routing (`handleDefaultProxyRequest`). In private-use mode with at
least one registered tunnel, `GetFirstTunnelID` selects a key that is present in the
registry, the handler goes on with `processProxyRequest` for that key, and a request
whose body can be read is handed to an adapter with the tunnel registered under that
key. In multi-tunnel mode the same holds for the sole tunnel when exactly one is
registered, and for every other number of tunnels the response is HTTP 400 and the
request is handed to no tunnel. -/
theorem implicit_routing_selection (toLower : String → String) (m : Manager) (pick : Nat)
    (req : Request) (requestID : String) :
    (1 ≤ m.tunnels.keys.length →
      ∃ id a, m.GetFirstTunnelID pick = (id, true) ∧ id ∈ m.tunnels.keys ∧
        m.GetTunnel id = some a ∧
        handleDefaultProxyRequest toLower true m pick req requestID =
          processProxyRequest toLower m req requestID id
            (if req.URLPath = "" then "/" else req.URLPath) ∧
        (∀ body, req.Body = some body →
          (handleDefaultProxyRequest toLower true m pick req requestID).routedTo m = some a)) ∧
    (∀ id, m.tunnels.keys = [id] →
      ∃ a, m.GetTunnel id = some a ∧
        handleDefaultProxyRequest toLower false m pick req requestID =
          processProxyRequest toLower m req requestID id
            (if req.URLPath = "" then "/" else req.URLPath) ∧
        (∀ body, req.Body = some body →
          (handleDefaultProxyRequest toLower false m pick req requestID).routedTo m = some a)) ∧
    (m.tunnels.keys.length ≠ 1 →
      (handleDefaultProxyRequest toLower false m pick req requestID).status = some 400 ∧
        (handleDefaultProxyRequest toLower false m pick req requestID).routedTo m = none) := by
  refine ⟨?_, ?_, ?_⟩
  · intro hn
    obtain ⟨id, hid, hmem⟩ := getFirstTunnelID_present m pick (by omega)
    obtain ⟨a, ha⟩ := lookup_of_mem_keys hmem
    have heq : handleDefaultProxyRequest toLower true m pick req requestID =
        processProxyRequest toLower m req requestID id
          (if req.URLPath = "" then "/" else req.URLPath) := by
      simp only [handleDefaultProxyRequest, hid, if_true, Bool.not_true, Bool.false_eq_true,
        if_false]
    refine ⟨id, a, hid, hmem, ha, heq, ?_⟩
    intro body hb
    rw [heq]
    exact processProxyRequest_routed toLower m req requestID id _ a body ha hb
  · intro id hk
    have hmem : id ∈ m.tunnels.keys := by rw [hk]; exact List.mem_singleton_self _
    obtain ⟨a, ha⟩ := lookup_of_mem_keys hmem
    have heq : handleDefaultProxyRequest toLower false m pick req requestID =
        processProxyRequest toLower m req requestID id
          (if req.URLPath = "" then "/" else req.URLPath) := by
      simp only [handleDefaultProxyRequest, getSingleTunnelID_one m pick hk, Bool.false_eq_true,
        if_false, Bool.not_true]
    refine ⟨a, ha, heq, ?_⟩
    intro body hb
    rw [heq]
    exact processProxyRequest_routed toLower m req requestID id _ a body ha hb
  · intro hne
    simp [handleDefaultProxyRequest, getSingleTunnelID_many m pick hne, Outcome.status,
      Outcome.routedTo]

/-- C9, at concrete registries: two tunnels in private-use mode, one tunnel and two
tunnels in multi-tunnel mode. -/
theorem implicit_routing_selection_witness :
    (∃ id a, twoTunnels.GetFirstTunnelID 3 = (id, true) ∧ id ∈ twoTunnels.tunnels.keys ∧
        twoTunnels.GetTunnel id = some a ∧
        (handleDefaultProxyRequest String.toLower true twoTunnels 3 getX "req-1").routedTo
          twoTunnels = some a) ∧
      (∃ a, (NewManager.RegisterTunnel "a" 10 0).1.GetTunnel "a" = some a ∧
        (handleDefaultProxyRequest String.toLower false (NewManager.RegisterTunnel "a" 10 0).1 3
          getX "req-1").routedTo (NewManager.RegisterTunnel "a" 10 0).1 = some a) ∧
      (handleDefaultProxyRequest String.toLower false twoTunnels 3 getX "req-1").status =
        some 400 := by
  obtain ⟨id, a, h1, h2, h3, -, h5⟩ :=
    (implicit_routing_selection String.toLower twoTunnels 3 getX "req-1").1 (by decide)
  obtain ⟨b, hb1, -, hb3⟩ :=
    (implicit_routing_selection String.toLower (NewManager.RegisterTunnel "a" 10 0).1 3 getX
      "req-1").2.1 "a" (by decide)
  exact ⟨⟨id, a, h1, h2, h3, h5 [] rfl⟩, ⟨b, hb1, hb3 [] rfl⟩,
    ((implicit_routing_selection String.toLower twoTunnels 3 getX "req-1").2.2 (by decide)).1⟩

/-- C10, refuted. Multi-tunnel mode, default route, empty registry: no tunnel is
available for the request, and the response status is 400, not 503. -/
theorem no_tunnel_default_route_is_400 :
    NewManager.tunnels.keys = [] ∧
      (ingress String.toLower false NewManager 0 getX "req-1" none).status = some 400 ∧
      (ingress String.toLower false NewManager 0 getX "req-1" none).status ≠ some 503 := by
  decide

/-- C10, amended. When no tunnel is available the HTTP ingress responds 503 on the
explicit route (multi-tunnel mode, no tunnel registered under the `tunnelID` of the
URL) and in private-use mode (empty registry; every request takes the default route
there, also one of the explicit form). On the default route in multi-tunnel mode the
response is 400 whenever the registry does not hold exactly one tunnel, the empty
registry included. -/
theorem no_tunnel_status (toLower : String → String) (m : Manager) (pick : Nat)
    (req : Request) (requestID : String) :
    (∀ tunnelID path, m.GetTunnel tunnelID = none →
      (ingress toLower false m pick req requestID (some (tunnelID, path))).status = some 503) ∧
    (m.tunnels.keys = [] →
      ∀ explicit, (ingress toLower true m pick req requestID explicit).status = some 503) ∧
    (m.tunnels.keys.length ≠ 1 →
      (ingress toLower false m pick req requestID none).status = some 400) := by
  refine ⟨?_, ?_, ?_⟩
  · intro tunnelID path hn
    simp [ingress, handleProxyRequest, processProxyRequest_absent toLower m req requestID
      tunnelID path hn, Outcome.status]
  · intro hk explicit
    simp [ingress, handleDefaultProxyRequest, Manager.GetFirstTunnelID, hk, Outcome.status]
  · intro hne
    simp [ingress, handleDefaultProxyRequest, getSingleTunnelID_many m pick hne, Outcome.status]

/-- C10, amended, at concrete registries. -/
theorem no_tunnel_status_witness :
    (ingress String.toLower false twoTunnels 0 getX "req-1" (some ("zz", "/x"))).status =
        some 503 ∧
      (ingress String.toLower true NewManager 0 getX "req-1" (some ("zz", "/x"))).status =
        some 503 ∧
      (ingress String.toLower false NewManager 0 getX "req-1" none).status = some 400 :=
  ⟨(no_tunnel_status String.toLower twoTunnels 0 getX "req-1").1 "zz" "/x" (by decide),
    (no_tunnel_status String.toLower NewManager 0 getX "req-1").2.1 (by decide) _,
    (no_tunnel_status String.toLower NewManager 0 getX "req-1").2.2 (by decide)⟩

/-! ## C11: one heartbeat scan -/

theorem Manager.idsOK_lookup {m : Manager} (h : m.IDsOK) {id : String} {a : Nat}
    (ha : m.tunnels.lookup id = some a) : ∃ t, m.objs[a]? = some t ∧ t.ID = id := by
  have hmem : (⟨id, a⟩ : Sigma (fun _ : String => Nat)) ∈ m.tunnels.entries :=
    AList.mem_lookup_iff.mp ha
  have := h _ hmem
  simp only [Option.map_eq_some'] at this
  exact this

/-- The empty registry is well formed, and `RegisterTunnel` and `RemoveTunnel` keep
every key equal to the `ID` of its tunnel object. -/
theorem Manager.idsOK_registerTunnel {m : Manager} (h : m.IDsOK) (id : String)
    (conn now : Nat) : (m.RegisterTunnel id conn now).1.IDsOK := by
  intro e he
  simp only [Manager.RegisterTunnel, AList.insert_entries, List.mem_cons] at he
  simp only [Manager.RegisterTunnel]
  rcases he with he | he
  · subst he
    simp [NewTunnel]
  · have hmem := (List.kerase_sublist _ _).subset he
    have hid := h e hmem
    have hlt : e.2 < m.objs.length := by
      cases hobj : m.objs[e.2]? with
      | none => rw [hobj] at hid; cases hid
      | some t =>
        rcases List.getElem?_eq_some_iff.mp hobj with ⟨hlt, _⟩
        exact hlt
    rw [List.getElem?_append_left hlt]
    exact hid

theorem Manager.idsOK_removeTunnel {m : Manager} (h : m.IDsOK) (id : String) :
    (m.RemoveTunnel id).IDsOK := by
  intro e he
  have hobjs : (m.RemoveTunnel id).objs = m.objs := by
    unfold Manager.RemoveTunnel
    split
    · split <;> rfl
    · rfl
  rw [hobjs]
  apply h e
  unfold Manager.RemoveTunnel at he
  split at he
  · split at he <;> exact (List.kerase_sublist _ _).subset he
  · exact he

theorem NewManager_idsOK : NewManager.IDsOK := by
  intro e he
  cases he

theorem Manager.removeTunnel_objs (m : Manager) (id : String) :
    (m.RemoveTunnel id).objs = m.objs := by
  unfold Manager.RemoveTunnel
  split
  · split <;> rfl
  · rfl

theorem Manager.removeTunnel_lookup_self (m : Manager) (id : String) :
    (m.RemoveTunnel id).tunnels.lookup id = none := by
  unfold Manager.RemoveTunnel
  split
  · split <;> exact AList.lookup_erase id _
  · assumption

theorem Manager.removeTunnel_lookup_ne (m : Manager) {id k : String} (h : k ≠ id) :
    (m.RemoveTunnel id).tunnels.lookup k = m.tunnels.lookup k := by
  unfold Manager.RemoveTunnel
  split
  · split <;> exact AList.lookup_erase_ne h
  · rfl

theorem heartbeatVisit_objs (pingOK : Nat → Bool) (now : Nat) (m : Manager) (a : Nat) :
    (heartbeatVisit pingOK now m a).objs = m.objs := by
  unfold heartbeatVisit
  split
  · rfl
  · split
    · exact Manager.removeTunnel_objs _ _
    · simp only []
      split
      · exact Manager.removeTunnel_objs _ _
      · rfl

theorem heartbeatVisit_bad (pingOK : Nat → Bool) (now : Nat) (m : Manager) (a : Nat)
    (t : Tunnel) (ht : m.objs[a]? = some t)
    (hbad : pingOK a = false ∨ (now : Int) - (t.LastPing : Int) > 60 * Second) :
    (heartbeatVisit pingOK now m a).tunnels.lookup t.ID = none := by
  unfold heartbeatVisit
  rw [ht]
  by_cases hp : pingOK a = true
  · have hto : (now : Int) - (t.LastPing : Int) > 60 * Second := by
      rcases hbad with h | h
      · rw [hp] at h; cases h
      · exact h
    simp only [hp, Bool.not_true, Bool.false_eq_true, if_false, decide_eq_true_eq, hto, if_true]
    exact Manager.removeTunnel_lookup_self _ _
  · have hf : pingOK a = false := by simpa using hp
    simp only [hf, Bool.not_false, if_true]
    exact Manager.removeTunnel_lookup_self _ _

theorem heartbeatVisit_keeps (pingOK : Nat → Bool) (now : Nat) (m : Manager) (a : Nat)
    (k : String)
    (hgood : ∀ t, m.objs[a]? = some t → t.ID = k →
      pingOK a = true ∧ (now : Int) - (t.LastPing : Int) ≤ 60 * Second) :
    (heartbeatVisit pingOK now m a).tunnels.lookup k = m.tunnels.lookup k := by
  unfold heartbeatVisit
  cases ht : m.objs[a]? with
  | none => rfl
  | some t =>
    simp only []
    by_cases hk : t.ID = k
    · obtain ⟨hp, hto⟩ := hgood t ht hk
      have hnot : ¬ ((now : Int) - (t.LastPing : Int) > 60 * Second) := not_lt.mpr hto
      simp [hp, hnot]
    · have hne : k ≠ t.ID := fun e => hk e.symm
      split
      · exact Manager.removeTunnel_lookup_ne _ hne
      · split
        · exact Manager.removeTunnel_lookup_ne _ hne
        · rfl

theorem heartbeatVisit_none (pingOK : Nat → Bool) (now : Nat) (m : Manager) (a : Nat)
    (k : String) (h : m.tunnels.lookup k = none) :
    (heartbeatVisit pingOK now m a).tunnels.lookup k = none := by
  unfold heartbeatVisit
  have hrm : ∀ id, (m.RemoveTunnel id).tunnels.lookup k = none := by
    intro id
    by_cases hk : k = id
    · subst hk; exact Manager.removeTunnel_lookup_self _ _
    · rw [Manager.removeTunnel_lookup_ne _ hk]; exact h
  split
  · exact h
  · split
    · exact hrm _
    · simp only []
      split
      · exact hrm _
      · exact h

theorem heartbeatScan_objs (pingOK : Nat → Bool) (now : Nat) :
    ∀ (tunnels : List Nat) (m : Manager), (heartbeatScan pingOK now m tunnels).objs = m.objs := by
  intro tunnels
  induction tunnels with
  | nil => intro m; rfl
  | cons a rest ih =>
    intro m
    simp only [heartbeatScan, List.foldl_cons]
    have := ih (heartbeatVisit pingOK now m a)
    simp only [heartbeatScan] at this
    rw [this, heartbeatVisit_objs]

theorem heartbeatScan_none (pingOK : Nat → Bool) (now : Nat) (k : String) :
    ∀ (tunnels : List Nat) (m : Manager), m.tunnels.lookup k = none →
      (heartbeatScan pingOK now m tunnels).tunnels.lookup k = none := by
  intro tunnels
  induction tunnels with
  | nil => intro m h; exact h
  | cons a rest ih =>
    intro m h
    simp only [heartbeatScan, List.foldl_cons]
    exact ih _ (heartbeatVisit_none pingOK now m a k h)

theorem heartbeatScan_bad (pingOK : Nat → Bool) (now : Nat) (a : Nat) (t : Tunnel)
    (hbad : pingOK a = false ∨ (now : Int) - (t.LastPing : Int) > 60 * Second) :
    ∀ (tunnels : List Nat) (m : Manager), a ∈ tunnels → m.objs[a]? = some t →
      (heartbeatScan pingOK now m tunnels).tunnels.lookup t.ID = none := by
  intro tunnels
  induction tunnels with
  | nil => intro m ha; cases ha
  | cons b rest ih =>
    intro m ha ht
    simp only [heartbeatScan, List.foldl_cons]
    rcases List.mem_cons.mp ha with hab | hrest
    · subst hab
      exact heartbeatScan_none pingOK now t.ID rest _ (heartbeatVisit_bad pingOK now m a t ht hbad)
    · have := ih (heartbeatVisit pingOK now m b) hrest (by rw [heartbeatVisit_objs]; exact ht)
      simpa only [heartbeatScan] using this

theorem heartbeatScan_keeps (pingOK : Nat → Bool) (now : Nat) (k : String) :
    ∀ (tunnels : List Nat) (m : Manager),
      (∀ a ∈ tunnels, ∀ t, m.objs[a]? = some t → t.ID = k →
        pingOK a = true ∧ (now : Int) - (t.LastPing : Int) ≤ 60 * Second) →
      (heartbeatScan pingOK now m tunnels).tunnels.lookup k = m.tunnels.lookup k := by
  intro tunnels
  induction tunnels with
  | nil => intro m _; rfl
  | cons b rest ih =>
    intro m hgood
    simp only [heartbeatScan, List.foldl_cons]
    have h1 := heartbeatVisit_keeps pingOK now m b k
      (fun t ht hk => hgood b (List.mem_cons_self _ _) t ht hk)
    have h2 := ih (heartbeatVisit pingOK now m b)
      (fun a ha t ht hk =>
        hgood a (List.mem_cons_of_mem _ ha) t (by rw [heartbeatVisit_objs] at ht; exact ht) hk)
    simp only [heartbeatScan] at h2
    rw [h2, h1]

/-- C11. One heartbeat scan at time `now` over a snapshot of the registry (the
registered tunnels, in any order). A tunnel of the snapshot whose Ping could not be
sent, or whose `LastPing` is more than 60 seconds before `now`, is absent from the
registry afterwards. A tunnel whose Ping was sent and whose `LastPing` is at most 60
seconds old (exactly 60 seconds included) is still registered, under the same ID. -/
theorem heartbeatScan_removes (pingOK : Nat → Bool) (now : Nat) (m : Manager)
    (tunnels : List Nat) (h : m.IDsOK) (hs : tunnels.Perm m.pointers)
    (id : String) (a : Nat) (t : Tunnel) (ha : m.GetTunnel id = some a)
    (ht : m.objs[a]? = some t) :
    ((pingOK a = false ∨ (now : Int) - (t.LastPing : Int) > 60 * Second) →
      (heartbeatScan pingOK now m tunnels).GetTunnel id = none) ∧
    ((pingOK a = true ∧ (now : Int) - (t.LastPing : Int) ≤ 60 * Second) →
      (heartbeatScan pingOK now m tunnels).GetTunnel id = some a) := by
  simp only [Manager.GetTunnel] at ha ⊢
  obtain ⟨t', ht', hid⟩ := Manager.idsOK_lookup h ha
  rw [ht] at ht'; cases ht'
  have hmem : a ∈ tunnels := by
    apply hs.symm.subset
    simp only [Manager.pointers]
    exact List.mem_map.mpr ⟨⟨id, a⟩, AList.mem_lookup_iff.mp ha, rfl⟩
  constructor
  · intro hbad
    have := heartbeatScan_bad pingOK now a t hbad tunnels m hmem ht
    rw [hid] at this
    exact this
  · intro hgood
    rw [heartbeatScan_keeps pingOK now id tunnels m, ha]
    intro b hb tb htb hkb
    have hb' : b ∈ m.pointers := hs.subset hb
    simp only [Manager.pointers] at hb'
    obtain ⟨e, he, heb⟩ := List.mem_map.mp hb'
    have hle : m.tunnels.lookup e.1 = some e.2 := AList.mem_lookup_iff.mpr he
    obtain ⟨te, hte, hide⟩ := Manager.idsOK_lookup h hle
    rw [heb, htb] at hte
    cases hte
    have hek : e.1 = id := by rw [← hide, hkb]
    have hba : some b = some a := by
      rw [← heb, ← hle, hek, ha]
    cases hba
    rw [ht] at htb; cases htb
    exact hgood

/-- C11, at a concrete registry: the Ping to "a" fails, the tunnel "b" was last heard
of exactly 60 seconds ago. -/
theorem heartbeatScan_removes_witness :
    (heartbeatScan (fun a => a != 0) 60000000000 twoTunnels [0, 1]).GetTunnel "a" = none ∧
      (heartbeatScan (fun a => a != 0) 60000000000 twoTunnels [0, 1]).GetTunnel "b" = some 1 :=
  ⟨(heartbeatScan_removes (fun a => a != 0) 60000000000 twoTunnels [0, 1] (by decide)
      (by decide) "a" 0 (NewTunnel "a" 10 0) (by decide) rfl).1 (Or.inl (by decide)),
    (heartbeatScan_removes (fun a => a != 0) 60000000000 twoTunnels [0, 1] (by decide)
      (by decide) "b" 1 (NewTunnel "b" 11 0) (by decide) rfl).2 ⟨by decide, by decide⟩⟩

/-! ## C12: slots of a destroyed tunnel -/

/-- C12, refuted. The tunnel "a" has the open slot "r" (channel 0). After
`RemoveTunnel("a")` the tunnel is gone from the registry and its transport is closed,
but the slot is still in the tunnel's slot table and its channel is still open; the
same holds after `RegisterTunnel("a", ...)` replaced the tunnel. -/
theorem removeTunnel_leaves_slot_open :
    ((oneStream.RemoveTunnel "a").m.GetTunnel "a" = none ∧
      (oneStream.RemoveTunnel "a").m.closedConns = [10] ∧
      ((oneStream.RemoveTunnel "a").m.objs[0]?).map (fun t => t.responseChans.lookup "r") =
        some (some 0) ∧
      ((oneStream.RemoveTunnel "a").chans[0]?).map (fun c => c.closed) = some false) ∧
    ((oneStream.RegisterTunnel "a" 11 5).1.m.GetTunnel "a" = some 1 ∧
      (oneStream.RegisterTunnel "a" 11 5).1.m.closedConns = [10] ∧
      ((oneStream.RegisterTunnel "a" 11 5).1.m.objs[0]?).map
        (fun t => t.responseChans.lookup "r") = some (some 0) ∧
      ((oneStream.RegisterTunnel "a" 11 5).1.chans[0]?).map (fun c => c.closed) =
        some false) := by
  decide

/-- C12, amended. Destroying the tunnel registered under `id` with `RemoveTunnel`, or
replacing it with `RegisterTunnel` on an ID collision, closes the transport of the
tunnel and nothing else: the tunnel object keeps its slot table and no channel
changes, so every slot of the tunnel stays registered, with its channel as it was (an
open channel stays open). -/
theorem tunnel_removal_keeps_slots (w : World) (id : String) (conn now : Nat) (a : Nat)
    (t : Tunnel) (ha : w.m.GetTunnel id = some a) (ht : w.m.objs[a]? = some t) :
    ((w.RemoveTunnel id).m.objs[a]? = some t ∧
      (w.RemoveTunnel id).m.closedConns = t.Conn :: w.m.closedConns ∧
      (w.RemoveTunnel id).chans = w.chans) ∧
    ((w.RegisterTunnel id conn now).1.m.objs[a]? = some t ∧
      (w.RegisterTunnel id conn now).1.m.closedConns = t.Conn :: w.m.closedConns ∧
      (w.RegisterTunnel id conn now).1.chans = w.chans) := by
  simp only [Manager.GetTunnel] at ha
  have hlt : a < w.m.objs.length := by
    rcases List.getElem?_eq_some_iff.mp ht with ⟨hlt, _⟩; exact hlt
  refine ⟨⟨?_, ?_, rfl⟩, ⟨?_, ?_, rfl⟩⟩
  · simp only [World.RemoveTunnel, Manager.removeTunnel_objs]
    exact ht
  · simp [World.RemoveTunnel, Manager.RemoveTunnel, ha, ht]
  · simp only [World.RegisterTunnel, Manager.RegisterTunnel]
    rw [List.getElem?_append_left hlt]
    exact ht
  · simp [World.RegisterTunnel, Manager.RegisterTunnel, ha, ht]

/-- C12, amended, at the concrete server of the refutation. -/
theorem tunnel_removal_keeps_slots_witness :
    (oneStream.RemoveTunnel "a").chans = oneStream.chans ∧
      (oneStream.RegisterTunnel "a" 11 5).1.chans = oneStream.chans :=
  ⟨(tunnel_removal_keeps_slots oneStream "a" 11 5 0
      { ID := "a", Conn := 10, LastPing := 0,
        responseChans := (∅ : AList (fun _ : String => Nat)).insert "r" 0 }
      (by decide) rfl).1.2.2,
    (tunnel_removal_keeps_slots oneStream "a" 11 5 0
      { ID := "a", Conn := 10, LastPing := 0,
        responseChans := (∅ : AList (fun _ : String => Nat)).insert "r" 0 }
      (by decide) rfl).2.2.2⟩

/-! ## C20: the slot table never holds a closed channel -/

/-- Replacing a channel by one with the same capacity and the same open or closed
state keeps the slot table well formed. -/
theorem Tunnel.SlotsOK.set_same {t : Tunnel} {chans : List Chan} (h : t.SlotsOK chans)
    {a : Nat} {c c1 : Chan} (hc : chans[a]? = some c) (hcl : c1.closed = c.closed)
    (hcp : c1.cap = c.cap) : t.SlotsOK (chans.set a c1) := by
  refine ⟨?_, h.2⟩
  intro e he
  obtain ⟨ce, hce, ho, hp⟩ := h.1 e he
  by_cases hea : a = e.2
  · subst hea
    rw [hc] at hce; cases hce
    exact ⟨c1, getElem?_set_self hc, by rw [hcl]; exact ho, by rw [hcp]; exact hp⟩
  · exact ⟨ce, by rw [getElem?_set_other c1 hea]; exact hce, ho, hp⟩

/-- On a well-formed slot table no operation panics, and the table stays well
formed. -/
theorem runSlotOp_ok {t : Tunnel} {chans : List Chan} (h : t.SlotsOK chans) (op : SlotOp) :
    ∃ t1 chans1, runSlotOp t chans op = some (t1, chans1) ∧ t1.SlotsOK chans1 := by
  cases op with
  | register requestID => exact ⟨_, _, rfl, h.register requestID⟩
  | unregister requestID =>
    cases hl : t.responseChans.lookup requestID with
    | none => exact ⟨t, chans, Tunnel.unregister_none hl, h⟩
    | some ch =>
      obtain ⟨c, hc, _, _⟩ := h.lookup hl
      exact ⟨_, _, Tunnel.unregister_some h hl hc, h.unregister hl _⟩
  | dispatch msg =>
    obtain ⟨chans1, hd, hok⟩ := Tunnel.dispatch_ok h msg
    exact ⟨t, chans1, by simp [runSlotOp, hd], hok⟩
  | receive ch =>
    cases hc : chans[ch]? with
    | none => exact ⟨t, chans, by simp [runSlotOp, hc], h⟩
    | some c =>
      cases hr : c.recv with
      | got msg rest =>
        obtain ⟨_, hcl, hcp⟩ := Chan.recv_got hr
        exact ⟨t, chans.set ch rest, by simp [runSlotOp, hc, hr], h.set_same hc hcl hcp⟩
      | done => exact ⟨t, chans, by simp [runSlotOp, hc, hr], h⟩
      | block => exact ⟨t, chans, by simp [runSlotOp, hc, hr], h⟩

theorem runSlotOps_ok :
    ∀ (ops : List SlotOp) (t : Tunnel) (chans : List Chan), t.SlotsOK chans →
      ∃ t1 chans1, runSlotOps ops t chans = some (t1, chans1) ∧ t1.SlotsOK chans1 := by
  intro ops
  induction ops with
  | nil => intro t chans h; exact ⟨t, chans, rfl, h⟩
  | cons op ops ih =>
    intro t chans h
    obtain ⟨t1, chans1, h1, hok1⟩ := runSlotOp_ok h op
    obtain ⟨t2, chans2, h2, hok2⟩ := ih t1 chans1 hok1
    exact ⟨t2, chans2, by simp [runSlotOps, h1, h2], hok2⟩

/-- C20. Every finite sequence of `RegisterResponseChan`, `UnregisterResponseChan`
and `DispatchMessage` calls (and of receives by the consumers) on a tunnel created by
`NewTunnel` runs to its end without a panic: no send on a closed channel, no close of
a closed channel. Afterwards every channel stored in the slot table is allocated and
open (and has capacity 1), and no channel is stored twice. -/
theorem slot_table_channels_open (id : String) (conn now : Nat) (chans0 : List Chan)
    (ops : List SlotOp) :
    ∃ t chans, runSlotOps ops (NewTunnel id conn now) chans0 = some (t, chans) ∧
      t.SlotsOK chans ∧
      ∀ requestID ch, t.responseChans.lookup requestID = some ch →
        ∃ c, chans[ch]? = some c ∧ c.closed = false := by
  obtain ⟨t, chans, hr, hok⟩ :=
    runSlotOps_ok ops (NewTunnel id conn now) chans0 (NewTunnel_slotsOK id conn now chans0)
  refine ⟨t, chans, hr, hok, ?_⟩
  intro requestID ch hl
  obtain ⟨c, hc, ho, _⟩ := hok.lookup hl
  exact ⟨c, hc, ho⟩

/-- C20, at a concrete sequence: a slot is registered, filled, unregistered twice, a
frame for it is dispatched late, and the ID is registered again. -/
theorem slot_table_channels_open_witness :
    ∃ t chans,
      runSlotOps
        [SlotOp.register "r", SlotOp.dispatch { ID := "r" }, SlotOp.unregister "r",
          SlotOp.unregister "r", SlotOp.dispatch { ID := "r" }, SlotOp.register "r"]
        (NewTunnel "a" 0 0) [] = some (t, chans) ∧
      ∀ requestID ch, t.responseChans.lookup requestID = some ch →
        ∃ c, chans[ch]? = some c ∧ c.closed = false := by
  obtain ⟨t, chans, h1, -, h3⟩ :=
    slot_table_channels_open "a" 0 0 []
      [SlotOp.register "r", SlotOp.dispatch { ID := "r" }, SlotOp.unregister "r",
        SlotOp.unregister "r", SlotOp.dispatch { ID := "r" }, SlotOp.register "r"]
  exact ⟨t, chans, h1, h3⟩

/-! ## C19: unknown and malformed frames in the dispatcher -/

/-- C19, refuted. A frame of the unknown type "bogus" whose id matches the registered
slot "r" is delivered to that slot; and after a text that cannot be decoded the loop
has ended: the frame that follows it on the transport is left unread and reaches no
slot. -/
theorem unknown_frame_is_delivered :
    "bogus" ∉ knownTypes ∧
    (dispatcherLoop [(Wire.frame { Type_ := "bogus", ID := "r" }, 1)] (slotTunnel "r" 0)
        [Chan.make 1]).map (fun r => (r.2.1, r.2.2)) =
      some ([{ buf := [{ Type_ := "bogus", ID := "r" }], cap := 1, closed := false }], []) ∧
    (dispatcherLoop
        [(Wire.malformed, 1), (Wire.frame { Type_ := MessageTypeResponse, ID := "r" }, 2)]
        (slotTunnel "r" 0) [Chan.make 1]).map (fun r => (r.2.1, r.2.2)) =
      some ([{ buf := [], cap := 1, closed := false }],
        [(Wire.frame { Type_ := MessageTypeResponse, ID := "r" }, 2)]) := by
  decide

/-- C19, amended. The dispatcher does not look at the type of a frame except to
recognise a pong: a frame of any other type, one of the twelve or not, is passed to
`DispatchMessage`, so it is delivered to the slot registered under its id when that
slot is empty, and the loop goes on with the next item of the transport. A text that
cannot be decoded (like a failed read) is delivered to no slot and ends the loop: the
slot table and all channels stay as they are and the items after it are not read. -/
theorem dispatcher_unknown_and_malformed (t : Tunnel) (chans : List Chan) (msg : Message)
    (now : Nat) (rest : List (Wire × Nat)) (ch : Nat) (c : Chan) (h : t.SlotsOK chans)
    (hty : msg.Type_ ∉ knownTypes) (hl : t.responseChans.lookup msg.ID = some ch)
    (hc : chans[ch]? = some c) (hb : c.buf = []) :
    (∃ chans1, t.DispatchMessage chans msg = some chans1 ∧
      chans1[ch]? = some { c with buf := [msg] } ∧
      dispatcherLoop ((Wire.frame msg, now) :: rest) t chans = dispatcherLoop rest t chans1) ∧
    dispatcherLoop ((Wire.malformed, now) :: rest) t chans = some (t, chans, rest) ∧
    dispatcherLoop ((Wire.readError, now) :: rest) t chans = some (t, chans, rest) := by
  have hpong : msg.Type_ ≠ MessageTypePong := by
    intro e
    apply hty
    rw [e]
    decide
  refine ⟨⟨chans.set ch (c.deliver msg), Tunnel.dispatch_some h hl hc, ?_, ?_⟩, rfl, rfl⟩
  · rw [getElem?_set_self hc]
    simp [Chan.deliver, hb]
  · simp [dispatcherLoop, ReadMessage, hpong, Tunnel.dispatch_some h hl hc]

/-- C19, amended, at the concrete tunnel of the refutation. -/
theorem dispatcher_unknown_and_malformed_witness :
    (∃ chans1,
      (slotTunnel "r" 0).DispatchMessage [Chan.make 1] { Type_ := "bogus", ID := "r" } =
        some chans1 ∧
      chans1[0]? = some { buf := [{ Type_ := "bogus", ID := "r" }], cap := 1, closed := false } ∧
      dispatcherLoop [(Wire.frame { Type_ := "bogus", ID := "r" }, 1), (Wire.malformed, 2)]
          (slotTunnel "r" 0) [Chan.make 1] =
        dispatcherLoop [(Wire.malformed, 2)] (slotTunnel "r" 0) chans1) ∧
    dispatcherLoop [(Wire.malformed, 1), (Wire.malformed, 2)] (slotTunnel "r" 0) [Chan.make 1] =
      some (slotTunnel "r" 0, [Chan.make 1], [(Wire.malformed, 2)]) :=
  ⟨(dispatcher_unknown_and_malformed (slotTunnel "r" 0) [Chan.make 1]
      { Type_ := "bogus", ID := "r" } 1 [(Wire.malformed, 2)] 0 (Chan.make 1) (by decide)
      (by decide) (by decide) (by decide) (by decide)).1,
    (dispatcher_unknown_and_malformed (slotTunnel "r" 0) [Chan.make 1]
      { Type_ := "bogus", ID := "r" } 1 [(Wire.malformed, 2)] 0 (Chan.make 1) (by decide)
      (by decide) (by decide) (by decide) (by decide)).2.1⟩

/-! ## C14: ForwardRequest unregisters its slot -/

/-- A receive from an open channel never reports that the channel is closed. -/
theorem Chan.recv_open {c : Chan} (h : c.closed = false) : c.recv ≠ Recv.done := by
  unfold Chan.recv
  split
  · intro e; cases e
  · simp [h]

theorem dispatchAll_ok (t : Tunnel) :
    ∀ (msgs : List Message) (chans : List Chan), t.SlotsOK chans →
      ∃ chans1, dispatchAll t msgs chans = some chans1 ∧ t.SlotsOK chans1 := by
  intro msgs
  induction msgs with
  | nil => intro chans h; exact ⟨chans, rfl, h⟩
  | cons msg msgs ih =>
    intro chans h
    obtain ⟨chans1, hd, hok1⟩ := Tunnel.dispatch_ok h msg
    obtain ⟨chans2, hd2, hok2⟩ := ih chans1 hok1
    exact ⟨chans2, by simp [dispatchAll, hd, hd2], hok2⟩

/-- The return of `ForwardRequest` from a state in which its slot is registered on a
well-formed slot table: the deferred unregistration succeeds and removes the slot. -/
theorem forwardReturn_ok (w : World) (a : Nat) (t0 : Tunnel) (t : Tunnel) (chans : List Chan)
    (requestID : String) (resp : Message) (ch : Nat) (ht0 : w.m.objs[a]? = some t0)
    (hok : t.SlotsOK chans) (hl : t.responseChans.lookup requestID = some ch) :
    ∃ w', forwardReturn w a t chans requestID resp = some (w', resp) ∧
      w'.m.objs[a]? = some { t with responseChans := t.responseChans.erase requestID } ∧
      w'.m.tunnels = w.m.tunnels := by
  obtain ⟨c, hc, _, _⟩ := hok.lookup hl
  have hlt : a < w.m.objs.length := by
    rcases List.getElem?_eq_some_iff.mp ht0 with ⟨hlt, _⟩; exact hlt
  refine ⟨{ m := { tunnels := w.m.tunnels,
                   objs := w.m.objs.set a
                     { ID := t.ID, Conn := t.Conn, LastPing := t.LastPing,
                       responseChans := t.responseChans.erase requestID },
                   closedConns := w.m.closedConns },
            chans := chans.set ch { buf := c.buf, cap := c.cap, closed := true } }, ?_, ?_, rfl⟩
  · simp only [forwardReturn, Tunnel.unregister_some hok hl hc]
  · simp [List.getElem?_set, hlt]

/-- C14. For every existing tunnel with a well-formed slot table and every request
frame `msg`, `ForwardRequest` returns, whichever way it leaves: on a send failure,
with a frame taken from the slot, or on the timeout. On return the slot table of the
tunnel has no entry under `msg.ID`, every entry under a different ID is what it was,
and the registry is unchanged. -/
theorem forwardRequest_unregisters (w : World) (tunnelID : String) (msg : Message)
    (sendErr : Option String) (arrivals : List Message) (timeoutFirst : Bool) (a : Nat)
    (t : Tunnel) (ha : w.m.GetTunnel tunnelID = some a) (ht : w.m.objs[a]? = some t)
    (hok : t.SlotsOK w.chans) :
    ∃ w' resp t',
      HTTPProxy.ForwardRequest w tunnelID msg sendErr arrivals timeoutFirst = some (w', resp) ∧
      w'.m.objs[a]? = some t' ∧ t'.responseChans.lookup msg.ID = none ∧
      (∀ id, id ≠ msg.ID → t'.responseChans.lookup id = t.responseChans.lookup id) ∧
      w'.m.tunnels = w.m.tunnels := by
  have hok1 : (t.RegisterResponseChan w.chans msg.ID).1.SlotsOK
      (t.RegisterResponseChan w.chans msg.ID).2.1 := hok.register msg.ID
  have hl1 : (t.RegisterResponseChan w.chans msg.ID).1.responseChans.lookup msg.ID =
      some (t.RegisterResponseChan w.chans msg.ID).2.2 := AList.lookup_insert _
  have hfin : ∀ (chans : List Chan) (resp : Message),
      (t.RegisterResponseChan w.chans msg.ID).1.SlotsOK chans →
      ∀ r, r = forwardReturn w a (t.RegisterResponseChan w.chans msg.ID).1 chans msg.ID resp →
      ∃ w' resp t', r = some (w', resp) ∧
        w'.m.objs[a]? = some t' ∧ t'.responseChans.lookup msg.ID = none ∧
        (∀ id, id ≠ msg.ID → t'.responseChans.lookup id = t.responseChans.lookup id) ∧
        w'.m.tunnels = w.m.tunnels := by
    intro chans resp hokc r hr
    obtain ⟨w', hw', hobj, htun⟩ := forwardReturn_ok w a t _ chans msg.ID resp _ ht hokc hl1
    refine ⟨w', resp, _, by rw [hr]; exact hw', hobj, AList.lookup_erase _ _, ?_, htun⟩
    intro id hid
    simp only [Tunnel.RegisterResponseChan]
    rw [AList.lookup_erase_ne hid, AList.lookup_insert_ne hid]
  unfold HTTPProxy.ForwardRequest
  simp only [ha, ht]
  cases sendErr with
  | some e => exact hfin _ _ hok1 _ rfl
  | none =>
    obtain ⟨chans2, hd, hok2⟩ := dispatchAll_ok _ arrivals _ hok1
    obtain ⟨c, hc, hopen, hcap⟩ := hok2.lookup hl1
    simp only [hd, hc]
    cases hr : c.recv with
    | got respMsg rest =>
      obtain ⟨_, hcl, hcp⟩ := Chan.recv_got hr
      cases timeoutFirst with
      | true => exact hfin _ _ hok2 _ rfl
      | false => exact hfin _ _ (hok2.set_same hc hcl hcp) _ rfl
    | done => exact absurd hr (Chan.recv_open hopen)
    | block => exact hfin _ _ hok2 _ rfl

/-- C14, at a concrete server: the tunnel "a" holds the slot "r" of another stream;
the request "q" is answered while `ForwardRequest` waits. -/
theorem forwardRequest_unregisters_witness :
    ∃ w' resp t',
      HTTPProxy.ForwardRequest oneStream "a" { Type_ := MessageTypeRequest, ID := "q" } none
        [{ Type_ := MessageTypeResponse, ID := "q", Status := 200 }] false = some (w', resp) ∧
      w'.m.objs[0]? = some t' ∧ t'.responseChans.lookup "q" = none ∧
      t'.responseChans.lookup "r" = some 0 := by
  obtain ⟨w', resp, t', h1, h2, h3, h4, -⟩ :=
    forwardRequest_unregisters oneStream "a" { Type_ := MessageTypeRequest, ID := "q" } none
      [{ Type_ := MessageTypeResponse, ID := "q", Status := 200 }] false 0
      { ID := "a", Conn := 10, LastPing := 0,
        responseChans := (∅ : AList (fun _ : String => Nat)).insert "r" 0 }
      (by decide) rfl (by decide)
  exact ⟨w', resp, t', h1, h2, h3, by rw [h4 "r" (by decide)]; decide⟩

/-! ## C13: registration and the opening frame -/

/-- C13, the defect. `handleSSEProxy` sends the request frame before it registers the
slot: an SSE frame dispatched between the two is lost (nothing is written), while the
same frame dispatched after the registration is written. `HandleWebSocketProxy` has
the same order: the 101 response dispatched between the send and the registration is
lost and the handshake times out, while dispatched after the registration it leads to
the upgrade. `ForwardRequest` registers first: a response dispatched right after the
send is returned. -/
theorem reply_before_registration_is_lost :
    ((handleSSEProxy (NewTunnel "a" 0 0) [] { Type_ := MessageTypeRequest, ID := "q" } none true
        [{ Type_ := MessageTypeSSE, ID := "q", SSEData := "a" }] [SlotEvent.receive]).map
        (fun r => r.2.2) =
      some (SSEOut.stream
        [("Content-Type", "text/event-stream"), ("Cache-Control", "no-cache"),
          ("Connection", "keep-alive"), ("X-Accel-Buffering", "no")] "") ∧
    (handleSSEProxy (NewTunnel "a" 0 0) [] { Type_ := MessageTypeRequest, ID := "q" } none true
        []
        [SlotEvent.dispatch { Type_ := MessageTypeSSE, ID := "q", SSEData := "a" },
          SlotEvent.receive]).map (fun r => r.2.2) =
      some (SSEOut.stream
        [("Content-Type", "text/event-stream"), ("Cache-Control", "no-cache"),
          ("Connection", "keep-alive"), ("X-Accel-Buffering", "no")] "a\n")) ∧
    ((HandleWebSocketProxy (NewTunnel "a" 0 0) [] "q" none
        [{ Type_ := MessageTypeResponse, ID := "q", Status := 101 }] [] false).map
        (fun r => r.2.2) = some (WSOut.json 500 "WebSocket升级超时") ∧
    (HandleWebSocketProxy (NewTunnel "a" 0 0) [] "q" none []
        [{ Type_ := MessageTypeResponse, ID := "q", Status := 101 }] false).map
        (fun r => r.2.2) = some WSOut.upgrade) ∧
    (HTTPProxy.ForwardRequest oneStream "a" { Type_ := MessageTypeRequest, ID := "q" } none
        [{ Type_ := MessageTypeResponse, ID := "q", Status := 200 }] false).map (fun r => r.2) =
      some { Type_ := MessageTypeResponse, ID := "q", Status := 200 } := by
  decide

/-! ## C18: SSE lines from the local service to the external client -/

theorem sseScan_all (sendOK : Nat → Bool) (id : String) (hsend : ∀ n, sendOK n = true) :
    ∀ (lines : List String) (sent : Nat),
      sseScan sendOK id lines sent =
        ((lines.filter (fun l => decide (l ≠ ""))).map
          (fun l => ({ Type_ := MessageTypeSSE, ID := id, SSEData := l } : Message)), true) := by
  intro lines
  induction lines with
  | nil => intro sent; rfl
  | cons line lines ih =>
    intro sent
    by_cases hl : line = ""
    · simp [sseScan, hl, ih sent]
    · simp [sseScan, hl, hsend sent, ih (sent + 1)]

/-- When every frame is dispatched and then received before the next one, the loop
writes the data of every SSE frame of the stream followed by a line feed, and ends
with an empty slot. -/
theorem sseLoop_deliverEach (t : Tunnel) (ch : Nat) (id : String)
    (hl : t.responseChans.lookup id = some ch) :
    ∀ (frames : List Message) (chans : List Chan) (body : String) (c : Chan),
      t.SlotsOK chans → chans[ch]? = some c → c.buf = [] →
      (∀ f ∈ frames, f.Type_ = MessageTypeSSE ∧ f.ID = id) →
      ∃ chans', sseLoop t ch id (deliverEach frames) chans body =
          some (chans', body ++ sseText (frames.map (fun f => f.SSEData))) ∧
        t.SlotsOK chans' := by
  intro frames
  induction frames with
  | nil =>
    intro chans body c hok _ _ _
    exact ⟨chans, by simp [deliverEach, sseLoop, sseText], hok⟩
  | cons f frames ih =>
    intro chans body c hok hc hb hfs
    obtain ⟨hty, hid⟩ := hfs f (List.mem_cons_self _ _)
    obtain ⟨c', hc', hopen, hcap⟩ := hok.lookup hl
    rw [hc] at hc'; cases hc'
    have hlf : t.responseChans.lookup f.ID = some ch := by rw [hid]; exact hl
    have hd : c.deliver f = { c with buf := [f] } := by simp [Chan.deliver, hb]
    have hc1 : (chans.set ch (c.deliver f))[ch]? = some (c.deliver f) := getElem?_set_self hc
    have hrecv : (c.deliver f).recv = Recv.got f { c with buf := [] } := by
      rw [hd]; rfl
    have hok2 : t.SlotsOK ((chans.set ch (c.deliver f)).set ch { c with buf := [] }) :=
      (hok.set ch _ (by rw [Chan.deliver_closed]; exact hopen)
        (by rw [Chan.deliver_cap]; exact hcap)).set ch _ hopen hcap
    obtain ⟨chans', hr, hok'⟩ :=
      ih ((chans.set ch (c.deliver f)).set ch { c with buf := [] })
        (body ++ (f.SSEData ++ "\n")) { c with buf := [] } hok2 (getElem?_set_self hc1) rfl
        (fun x hx => hfs x (List.mem_cons_of_mem _ hx))
    refine ⟨chans', ?_, hok'⟩
    simp only [deliverEach, sseLoop, Tunnel.dispatch_some hok hlf hc, hc1, hrecv, hty, hid,
      and_self, if_true]
    rw [hr]
    simp [sseText, String.append_assoc]

/-- C18. When the local request succeeds, every `SendMessage` succeeds and the
scanner ends without an error, the client passes to the tunnel exactly one SSE frame
per non-empty line, in order, each with the ID of the request and the line as
`SSEData`. When each of these frames is delivered to the slot of the stream (dispatched
and received before the next one), `handleSSEProxy` writes to the external response
exactly the non-empty lines, in order, each followed by a line feed. -/
theorem sse_lines_forwarded (t : Tunnel) (chans : List Chan) (msg : Message)
    (lines : List String) (sendOK : Nat → Bool) (h : t.SlotsOK chans)
    (hsend : ∀ n, sendOK n = true) :
    handleSSERequest msg none none lines none sendOK =
        (lines.filter (fun l => decide (l ≠ ""))).map
          (fun l => ({ Type_ := MessageTypeSSE, ID := msg.ID, SSEData := l } : Message)) ∧
    ∃ t' chans',
      handleSSEProxy t chans msg none true []
          (deliverEach (handleSSERequest msg none none lines none sendOK)) =
        some (t', chans',
          SSEOut.stream
            [("Content-Type", "text/event-stream"), ("Cache-Control", "no-cache"),
              ("Connection", "keep-alive"), ("X-Accel-Buffering", "no")]
            (sseText (lines.filter (fun l => decide (l ≠ ""))))) := by
  have hclient : handleSSERequest msg none none lines none sendOK =
      (lines.filter (fun l => decide (l ≠ ""))).map
        (fun l => ({ Type_ := MessageTypeSSE, ID := msg.ID, SSEData := l } : Message)) := by
    simp [handleSSERequest, sseScan_all sendOK msg.ID hsend lines 0]
  refine ⟨hclient, ?_⟩
  rw [hclient]
  have hok1 : (t.RegisterResponseChan chans msg.ID).1.SlotsOK
      (t.RegisterResponseChan chans msg.ID).2.1 := h.register msg.ID
  have hl1 : (t.RegisterResponseChan chans msg.ID).1.responseChans.lookup msg.ID =
      some (t.RegisterResponseChan chans msg.ID).2.2 := AList.lookup_insert _
  have hc1 : (t.RegisterResponseChan chans msg.ID).2.1[(t.RegisterResponseChan chans msg.ID).2.2]?
      = some (Chan.make 1) := by
    simp [Tunnel.RegisterResponseChan]
  obtain ⟨chans3, hloop, hok3⟩ :=
    sseLoop_deliverEach _ _ msg.ID hl1
      ((lines.filter (fun l => decide (l ≠ ""))).map
        (fun l => ({ Type_ := MessageTypeSSE, ID := msg.ID, SSEData := l } : Message)))
      _ "" (Chan.make 1) hok1 hc1 rfl
      (by
        intro f hf
        obtain ⟨l, _, rfl⟩ := List.mem_map.mp hf
        exact ⟨rfl, rfl⟩)
  obtain ⟨c3, hc3, _, _⟩ := hok3.lookup hl1
  have hun := Tunnel.unregister_some hok3 hl1 hc3
  have hdata : ((lines.filter (fun l => decide (l ≠ ""))).map
      (fun l => ({ Type_ := MessageTypeSSE, ID := msg.ID, SSEData := l } : Message))).map
        (fun f => f.SSEData) = lines.filter (fun l => decide (l ≠ "")) := by
    simp [List.map_map, Function.comp_def]
  rw [hdata] at hloop
  have hempty : ∀ s : String, "" ++ s = s := by
    intro s
    apply String.ext
    simp
  rw [hempty] at hloop
  refine ⟨{ ID := (t.RegisterResponseChan chans msg.ID).1.ID,
            Conn := (t.RegisterResponseChan chans msg.ID).1.Conn,
            LastPing := (t.RegisterResponseChan chans msg.ID).1.LastPing,
            responseChans :=
              (t.RegisterResponseChan chans msg.ID).1.responseChans.erase msg.ID },
    chans3.set (t.RegisterResponseChan chans msg.ID).2.2
      { buf := c3.buf, cap := c3.cap, closed := true }, ?_⟩
  simp only [handleSSEProxy, dispatchAll, Bool.not_true, Bool.false_eq_true, if_false, hloop, hun]

/-- C18, at the lines a, b, c (with an empty line in between): the external client is
sent a, b and c, each followed by a line feed. -/
theorem sse_lines_forwarded_witness :
    ∃ t' chans',
      handleSSEProxy (NewTunnel "t1" 0 0) [] { Type_ := MessageTypeRequest, ID := "q" } none true
          []
          (deliverEach (handleSSERequest { Type_ := MessageTypeRequest, ID := "q" } none none
            ["a", "", "b", "c"] none (fun _ => true))) =
        some (t', chans',
          SSEOut.stream
            [("Content-Type", "text/event-stream"), ("Cache-Control", "no-cache"),
              ("Connection", "keep-alive"), ("X-Accel-Buffering", "no")] "a\nb\nc\n") := by
  obtain ⟨t', chans', h⟩ :=
    (sse_lines_forwarded (NewTunnel "t1" 0 0) [] { Type_ := MessageTypeRequest, ID := "q" }
      ["a", "", "b", "c"] (fun _ => true) (by decide) (fun _ => rfl)).2
  exact ⟨t', chans', h⟩

/-! ## C15: the external response to a Response frame -/

/-- C15, the defect. The Response frame carries two values for `Set-Cookie`. The loop
of `processProxyRequest` calls `c.Header` once per value, and each call replaces the
header: the external response carries only the last value. It also carries a
`Content-Type` that is not in the frame, the (here empty) content type of the request.
The same loop in `HandleClientRequest` uses `Header.Add` and keeps both values. -/
theorem multi_valued_header_keeps_last :
    headerValues twoCookies.Headers "Set-Cookie" = ["a=1", "b=2"] ∧
    proxyReply id getX twoCookies =
      ProxyReply.data 200 [("Content-Type", [""]), ("Set-Cookie", ["b=2"])] [104, 105] ∧
    headerValues (clientRequest id "" twoCookies).Header "Set-Cookie" = ["a=1", "b=2"] := by
  decide

/-! ## C16: the query string -/

/-- C16. The frame that `processProxyRequest` builds for a request with raw query `q`
and the path `path` carries `path` when `q` is empty and `path`, a question mark and
`q` otherwise, whichever adapter it is handed to. `HandleClientRequest` passes the
target URL followed by the `Path` of the frame to `http.NewRequest` as it is, so for a
forwarded request the local service is called at the target URL followed by that
text. -/
theorem query_string_preserved (toLower canon : String → String) (m : Manager) (req : Request)
    (requestID tunnelID path : String) (a : Nat) (body : List Nat) (targetURL : String)
    (doRequest : LocalRequest → Except String LocalResponse)
    (ha : m.GetTunnel tunnelID = some a) (hb : req.Body = some body) :
    (processProxyRequest toLower m req requestID tunnelID path).path =
        some (if req.RawQuery = "" then path else path ++ "?" ++ req.RawQuery) ∧
    (∀ msg, ((HandleClientRequest canon targetURL msg none doRequest).2).map (fun r => r.URL) =
        some (targetURL ++ msg.Path)) ∧
    (∀ id msg, processProxyRequest toLower m req requestID tunnelID path = Outcome.forward id msg →
      msg.Type_ = MessageTypeRequest ∧
      ((HandleClientRequest canon targetURL msg none doRequest).2).map (fun r => r.URL) =
        some (targetURL ++ (if req.RawQuery = "" then path else path ++ "?" ++ req.RawQuery))) := by
  have hclient : ∀ msg,
      ((HandleClientRequest canon targetURL msg none doRequest).2).map (fun r => r.URL) =
        some (targetURL ++ msg.Path) := by
    intro msg
    simp only [HandleClientRequest]
    cases doRequest (clientRequest canon targetURL msg) with
    | error e => rfl
    | ok resp =>
      simp only []
      cases resp.Body with
      | error e => rfl
      | ok b => rfl
  refine ⟨?_, hclient, ?_⟩
  · simp only [processProxyRequest, ha, hb]
    by_cases hq : req.RawQuery = ""
    · simp only [hq, ne_eq, not_true_eq_false, if_false, if_true]
      split
      · rfl
      · split <;> rfl
    · simp only [hq, ne_eq, not_false_eq_true, if_true, if_false]
      split
      · rfl
      · split <;> rfl
  · intro id msg hout
    rw [hclient]
    simp only [processProxyRequest, ha, hb] at hout
    by_cases hq : req.RawQuery = ""
    · simp only [hq, ne_eq, not_true_eq_false, if_false, if_true] at hout ⊢
      split at hout
      · cases hout
      · split at hout
        · cases hout
        · cases hout
          exact ⟨rfl, rfl⟩
    · simp only [hq, ne_eq, not_false_eq_true, if_true, if_false] at hout ⊢
      split at hout
      · cases hout
      · split at hout
        · cases hout
        · cases hout
          exact ⟨rfl, rfl⟩

/-- C16, at `GET /q?x=1&y=two` on a server with the single tunnel "a": the frame
carries the path `/q?x=1&y=two`. -/
theorem query_string_preserved_witness :
    (processProxyRequest String.toLower (NewManager.RegisterTunnel "a" 10 0).1 getQ "req-1" "a"
        "/q").path = some "/q?x=1&y=two" := by
  have h := (query_string_preserved String.toLower id (NewManager.RegisterTunnel "a" 10 0).1 getQ
    "req-1" "a" "/q" 0 [] "http://localhost:8080" (fun _ => Except.error "") (by decide) rfl).1
  rw [h]
  decide

/-! ## C17: WebSocket detection -/

theorem any_eq_true_iff_exists (vals : List String) (p : String → Bool) :
    vals.any p = true ↔ ∃ v ∈ vals, p v = true := by
  simp [List.any_eq_true]

/-- Lowering the letters A to Z of `v` gives the lower case word `w` exactly when `v`
equals `w` up to letter case. -/
theorem toLower_eq_iff (v w : String) (hw : w.data.map Char.toLower = w.data) :
    v.toLower = w ↔ eqIgnoreCase v w = true := by
  simp only [String.toLower, String.map_eq, eqIgnoreCase, beq_iff_eq, hw]
  constructor
  · intro h
    rw [← h]
  · intro h
    apply String.ext
    exact h

/-- C17. `IsWebSocketRequest` is true exactly when some value of the `Connection`
header is "upgrade" after `strings.ToLower` and some value of the `Upgrade` header is
"websocket" after `strings.ToLower`. Where `strings.ToLower` lowers the letters A to Z
of the values (as it does on every ASCII text), this says: some value of `Connection`
equals "upgrade" and some value of `Upgrade` equals "websocket", up to letter case. -/
theorem isWebSocketRequest_iff (toLower : String → String)
    (headers : List (String × List String)) :
    (IsWebSocketRequest toLower headers = true ↔
      (∃ v ∈ headerValues headers "Connection", toLower v = "upgrade") ∧
        (∃ v ∈ headerValues headers "Upgrade", toLower v = "websocket")) ∧
    ((∀ v ∈ headerValues headers "Connection", toLower v = v.toLower) →
      (∀ v ∈ headerValues headers "Upgrade", toLower v = v.toLower) →
      (IsWebSocketRequest toLower headers = true ↔
        (∃ v ∈ headerValues headers "Connection", eqIgnoreCase v "upgrade" = true) ∧
          (∃ v ∈ headerValues headers "Upgrade", eqIgnoreCase v "websocket" = true))) := by
  have hmain : IsWebSocketRequest toLower headers = true ↔
      (∃ v ∈ headerValues headers "Connection", toLower v = "upgrade") ∧
        (∃ v ∈ headerValues headers "Upgrade", toLower v = "websocket") := by
    simp only [IsWebSocketRequest, Bool.and_eq_true, any_eq_true_iff_exists, beq_iff_eq]
  refine ⟨hmain, ?_⟩
  intro hc hu
  rw [hmain]
  have h1 : ("upgrade" : String).data.map Char.toLower = ("upgrade" : String).data := by decide
  have h2 : ("websocket" : String).data.map Char.toLower = ("websocket" : String).data := by
    decide
  constructor
  · rintro ⟨⟨v, hv, hve⟩, ⟨u, hu', hue⟩⟩
    refine ⟨⟨v, hv, ?_⟩, ⟨u, hu', ?_⟩⟩
    · rw [hc v hv] at hve
      exact (toLower_eq_iff v "upgrade" h1).mp hve
    · rw [hu u hu'] at hue
      exact (toLower_eq_iff u "websocket" h2).mp hue
  · rintro ⟨⟨v, hv, hve⟩, ⟨u, hu', hue⟩⟩
    refine ⟨⟨v, hv, ?_⟩, ⟨u, hu', ?_⟩⟩
    · rw [hc v hv]
      exact (toLower_eq_iff v "upgrade" h1).mpr hve
    · rw [hu u hu']
      exact (toLower_eq_iff u "websocket" h2).mpr hue

/-- C17, at concrete headers: `Connection: Upgrade` with `Upgrade: WebSocket` is a
WebSocket request; `Connection: keep-alive` is not. -/
theorem isWebSocketRequest_iff_witness :
    IsWebSocketRequest String.toLower
        [("Connection", ["Upgrade"]), ("Upgrade", ["WebSocket"])] = true ∧
      ¬ (IsWebSocketRequest String.toLower
        [("Connection", ["keep-alive"]), ("Upgrade", ["WebSocket"])] = true) := by
  constructor
  · exact ((isWebSocketRequest_iff String.toLower
      [("Connection", ["Upgrade"]), ("Upgrade", ["WebSocket"])]).2
      (fun _ _ => rfl) (fun _ _ => rfl)).mpr
      ⟨⟨"Upgrade", by decide, by decide⟩, ⟨"WebSocket", by decide, by decide⟩⟩
  · intro h
    obtain ⟨⟨v, hv, hve⟩, _⟩ := ((isWebSocketRequest_iff String.toLower
      [("Connection", ["keep-alive"]), ("Upgrade", ["WebSocket"])]).2
      (fun _ _ => rfl) (fun _ _ => rfl)).mp h
    have hv' : v = "keep-alive" := by
      simpa [headerValues, List.lookup] using hv
    subst hv'
    revert hve
    decide

end NatGo
